import Mathlib

/-!
Verification of the Surveil backend detection pipeline
(src/backend/detector_pipeline.py, src/backend/detectors/fight.py,
src/backend/detectors/gemini_weapon.py) against its specification.

Modelling conventions:
* Python floats are idealized as exact rationals (`ℚ`); every comparison the
  source performs is translated exactly.
* `np.hypot` (a square root) cannot be computed in `ℚ`; wherever the source
  compares a hypotenuse against a bound, the embedding decides the identical
  real-number comparison by squaring (documented at each definition).
* Per-camera dictionaries (`self._prev_bboxes[cam_id]`, ...) are modelled as
  the state of one camera: the source never shares these entries between
  cameras, so one camera's cycle sequence is fully described by them.
* Python's `time.monotonic()` is modelled as an explicit `now : ℚ` argument;
  ISO timestamps as an opaque `String` argument.
-/

section
/- Core `Rat` arithmetic is `@[irreducible]` by default, which blocks
`decide` on concrete rational computations; within this development it is
restored to semireducible so that concrete runs of the embedded functions
evaluate in the kernel. -/
attribute [local semireducible] Rat.mul Rat.add Rat.inv Rat.sub

/-- Normalized bounding box in the event-dict form `{x, y, width, height}`
(detector event schema, detectors/base.py). -/
structure BBox where
  x : ℚ
  y : ℚ
  width : ℚ
  height : ℚ
deriving DecidableEq

/-- Bounding box in `(x1, y1, x2, y2)` corner form (`bbox_xyxy_norm`). -/
structure BoxXY where
  x1 : ℚ
  y1 : ℚ
  x2 : ℚ
  y2 : ℚ
deriving DecidableEq

/-- `_compute_iou` from detector_pipeline.py (lines 137-144): intersection
over union of two corner-form boxes, returning 0 when the union is below
the 1e-8 guard. -/
def computeIou (a b : BoxXY) : ℚ :=
  let interX1 := max a.x1 b.x1
  let interY1 := max a.y1 b.y1
  let interX2 := min a.x2 b.x2
  let interY2 := min a.y2 b.y2
  let inter := max 0 (interX2 - interX1) * max 0 (interY2 - interY1)
  let union := (a.x2 - a.x1) * (a.y2 - a.y1) + (b.x2 - b.x1) * (b.y2 - b.y1) - inter
  if union > 1 / 100000000 then inter / union else 0

/-- `_compute_iou_xyxy` from detectors/fight.py (lines 376-387); its body is
the same computation as `_compute_iou` in detector_pipeline.py. -/
def computeIouXyxy (a b : BoxXY) : ℚ :=
  let interX1 := max a.x1 b.x1
  let interY1 := max a.y1 b.y1
  let interX2 := min a.x2 b.x2
  let interY2 := min a.y2 b.y2
  let inter := max 0 (interX2 - interX1) * max 0 (interY2 - interY1)
  let areaA := (a.x2 - a.x1) * (a.y2 - a.y1)
  let areaB := (b.x2 - b.x1) * (b.y2 - b.y1)
  let union := areaA + areaB - inter
  if union > 1 / 100000000 then inter / union else 0

/-- Python `round` rounds half to even (banker's rounding): round to the
nearest integer, ties going to the even neighbour. -/
def roundHalfEven (q : ℚ) : ℤ :=
  let f := ⌊q⌋
  let r := q - (f : ℚ)
  if r < 1 / 2 then f
  else if r > 1 / 2 then f + 1
  else if f % 2 = 0 then f else f + 1

/-- Python `round(q, d)`: round to `d` decimal places, half to even. -/
def pyRound (d : ℕ) (q : ℚ) : ℚ :=
  (roundHalfEven (q * 10 ^ d) : ℚ) / 10 ^ d

/-- One detection event (the event dict of detectors/base.py).
`source` models the optional `"source"` key that FightDetector attaches to
its person events and `_deduplicate_person_events` pops. -/
structure Event where
  cameraId : String
  eventType : String
  timestamp : String
  confidence : ℚ
  boundingBox : BBox
  source : Option String
deriving DecidableEq

instance : Inhabited Event :=
  ⟨⟨"", "", "", 0, ⟨0, 0, 0, 0⟩, none⟩⟩

/-- `_PERSON_DEDUP_IOU_THRESHOLD` (detector_pipeline.py line 94). -/
def personDedupIouThreshold : ℚ := 1 / 2

/-- `_to_xyxy` inside `_deduplicate_person_events`. -/
def toXyxy (bb : BBox) : BoxXY :=
  ⟨bb.x, bb.y, bb.x + bb.width, bb.y + bb.height⟩

/-- `e.pop("source", None)`: drop the source annotation from an event. -/
def clearSource (e : Event) : Event :=
  { e with source := none }

/-- The inner `for j in range(i+1, ...)` loop of `_deduplicate_person_events`:
scan candidates `j` after `i`, suppressing the lower-confidence event of any
pair whose IoU exceeds the threshold; when `i` itself loses, it is suppressed
and the scan breaks. -/
def dedupInner (ps : List Event) (i : ℕ) : List ℕ → List ℕ → List ℕ
  | [], supp => supp
  | j :: rest, supp =>
    if j ∈ supp then dedupInner ps i rest supp
    else
      let ei := ps.getD i default
      let ej := ps.getD j default
      if computeIou (toXyxy ei.boundingBox) (toXyxy ej.boundingBox) > personDedupIouThreshold then
        if ei.confidence ≥ ej.confidence then dedupInner ps i rest (j :: supp)
        else i :: supp
      else dedupInner ps i rest supp

/-- The outer `for i in range(len(indexed))` loop of
`_deduplicate_person_events`, accumulating the suppressed index set. -/
def dedupOuter (ps : List Event) : List ℕ → List ℕ → List ℕ
  | [], supp => supp
  | i :: rest, supp =>
    if i ∈ supp then dedupOuter ps rest supp
    else dedupOuter ps rest (dedupInner ps i (List.range' (i + 1) (ps.length - (i + 1))) supp)

/-- The kept person events of `_deduplicate_person_events` (general branch):
events whose index was not suppressed, with the source annotation popped. -/
def dedupKept (ps : List Event) : List Event :=
  let supp := dedupOuter ps (List.range ps.length) []
  ((List.range ps.length).filter (fun k => ¬ k ∈ supp)).map
    (fun k => clearSource (ps.getD k default))

/-- `_deduplicate_person_events` (detector_pipeline.py lines 97-134):
OR-merge of `person_detected` events; other events pass through first
(`return other_events + kept`). -/
def deduplicatePersonEvents (events : List Event) : List Event :=
  let personEvents := events.filter (fun e => e.eventType = "person_detected")
  let otherEvents := events.filter (fun e => ¬ e.eventType = "person_detected")
  if personEvents.length ≤ 1 then
    otherEvents ++ personEvents.map clearSource
  else
    otherEvents ++ dedupKept personEvents

/-- One detector as seen by `_run_detectors` (detector_pipeline.py):
its `name`, `enabled` property, whether it is the `_fight_detector`
instance (the `detector is _fight_detector` identity check), and the
outcome of its `detect(frame, cam_id)` call for the current cycle
(`none` models the call raising an exception). -/
structure DetectorSpec where
  name : String
  enabled : Bool
  isFight : Bool
  result : Option (List Event)
deriving DecidableEq

/-- One iteration of the `for detector in _detectors` loop of
`_run_detectors` (detector_pipeline.py lines 150-165), acting on the
accumulated `(all_events, error_logs)` pair.  A raised `detect` is caught,
logged with detector name and camera id, and contributes nothing; after
the fight detector the accumulated events are deduplicated. -/
def runDetectorStep (camId : String) (acc : List Event × List (String × String))
    (d : DetectorSpec) : List Event × List (String × String) :=
  if ¬ d.enabled then acc
  else
    match d.result with
    | none => (acc.1, acc.2 ++ [(d.name, camId)])
    | some events =>
      let allEvents := acc.1 ++ events
      (if d.isFight then deduplicatePersonEvents allEvents else allEvents, acc.2)

/-- The `for detector in _detectors` loop of `_run_detectors`. -/
def runDetectorsAux (camId : String) (acc : List Event × List (String × String)) :
    List DetectorSpec → List Event × List (String × String)
  | [] => acc
  | d :: ds => runDetectorsAux camId (runDetectorStep camId acc d) ds

/-- `_run_detectors(frame, cam_id)` (detector_pipeline.py lines 147-166),
returning the event list and the `(detector_name, cam_id)` error log. -/
def runDetectors (camId : String) (ds : List DetectorSpec) :
    List Event × List (String × String) :=
  runDetectorsAux camId ([], []) ds

/-- The `_detectors` list of detector_pipeline.py (lines 36-41): Person →
Fight → Motion → Weapon, with the fight detector marked for the post-dedup
pass; each detector's per-cycle `detect` outcome is a parameter. -/
def pipelineDetectors (pe fe me we : Option (List Event)) : List DetectorSpec :=
  [⟨"person_detector", true, false, pe⟩,
   ⟨"fight_detector", true, true, fe⟩,
   ⟨"motion_detector", true, false, me⟩,
   ⟨"weapon_detector", true, false, we⟩]

/-- `GEMINI_WEAPON_COOLDOWN_SECS`.  Modelled from the spec: the constant is
imported by detectors/gemini_weapon.py from config.py but is absent from
src/backend/config.py; the spec's Admission Gate scenario and the
detector's docstring fix it at 30 seconds. -/
def geminiWeaponCooldownSecs : ℚ := 30

/-- One weapon record parsed from the external API response, after the
source's `dict.get` defaults have been applied. -/
structure Weapon where
  wtype : String
  confidence : ℚ
  held : Bool
  box : BBox
deriving DecidableEq

/-- The weapon event built for one parsed weapon record
(detectors/gemini_weapon.py lines 156-171). -/
def mkWeaponEvent (camId nowIso : String) (w : Weapon) : Event :=
  ⟨camId, "weapon_detected", nowIso, pyRound 3 w.confidence,
    ⟨pyRound 4 w.box.x, pyRound 4 w.box.y, pyRound 4 w.box.width, pyRound 4 w.box.height⟩,
    none⟩

/-- Look up a key in an association list (a Python dict). -/
def lookupAssoc (m : List (String × ℚ)) (k : String) : Option ℚ :=
  (m.find? (fun kv => kv.1 = k)).map (fun kv => kv.2)

/-- `m[k] = v` on an association list (a Python dict). -/
def setAssoc (m : List (String × ℚ)) (k : String) (v : ℚ) : List (String × ℚ) :=
  if (m.find? (fun kv => kv.1 = k)).isSome then
    m.map (fun kv => if kv.1 = k then (k, v) else kv)
  else m ++ [(k, v)]

/-- `GeminiWeaponDetector.detect` (detectors/gemini_weapon.py lines
106-180) for an enabled detector, modelled from the person-gate onward:
state is the per-camera `_last_call` dict; `callResult` is the outcome of
the external `generate_content` call plus JSON parse (`none` = the
`except` path).  Returns the new state, the emitted events, and whether
the external call was performed at all. -/
def geminiDetect (lastCall : List (String × ℚ)) (camId nowIso : String) (now : ℚ)
    (personEvents : List Event) (callResult : Option (List Weapon)) :
    List (String × ℚ) × List Event × Bool :=
  if personEvents = [] then (lastCall, [], false)
  else if now - (lookupAssoc lastCall camId).getD 0 < geminiWeaponCooldownSecs then
    (lastCall, [], false)
  else
    let lastCall' := setAssoc lastCall camId now
    match callResult with
    | none => (lastCall', [], true)
    | some weapons => (lastCall', weapons.map (mkWeaponEvent camId nowIso), true)

/-- The admission decision as the spec words it ("skip if less than the
configured cooldown interval has elapsed since the last *successful* call
for this camera; else perform the call"): written from the spec text of
§4.5, to be compared with the source's behaviour, which keys the cooldown
on the last *admitted attempt* instead. -/
def specAdmits (lastSuccess : Option ℚ) (now : ℚ) (personPresent : Bool) : Bool :=
  personPresent &&
    match lastSuccess with
    | none => true
    | some t => geminiWeaponCooldownSecs ≤ now - t

/-- Config constants from src/backend/config.py (lines 44-51), as exact
rationals. -/
def fightKeypointConfidenceMin : ℚ := 3 / 10

/-- `FIGHT_PROXIMITY_RATIO = 0.8`. -/
def fightProximityRatio : ℚ := 4 / 5

/-- `FIGHT_ARM_INTRUSION_MARGIN = 0.02`. -/
def fightArmIntrusionMargin : ℚ := 1 / 50

/-- `FIGHT_VELOCITY_THRESHOLD = 0.12`. -/
def fightVelocityThreshold : ℚ := 3 / 25

/-- `FIGHT_MIN_CRITERIA = 2`. -/
def fightMinCriteria : ℕ := 2

/-- `FIGHT_SUSTAIN_FRAMES = 3`. -/
def fightSustainFrames : ℕ := 3

/-- `FIGHT_EVENT_COOLDOWN_SECS = 3.0`. -/
def fightEventCooldownSecs : ℚ := 3

/-- `_WRIST_INDICES` (fight.py line 39). -/
def wristIndices : List ℕ := [9, 10]

/-- `_LIMB_INDICES = _WRIST_INDICES + _ELBOW_INDICES` (fight.py line 41). -/
def limbIndices : List ℕ := [9, 10, 7, 8]

/-- `_WRIST_SHOULDER_PAIRS` (fight.py line 44). -/
def wristShoulderPairs : List (ℕ × ℕ) := [(9, 5), (10, 6)]

/-- `_PersonPose` (fight.py lines 49-64): one detected person, with the
rounded event-dict box, the unrounded normalized corner box, normalized
keypoints and their confidences, and the detection confidence.  The
derived `center` is computed on demand; the derived `diagonal` (a square
root) is represented by its square. -/
structure Pose where
  bboxNorm : BBox
  bbox : BoxXY
  keypoints : List (ℚ × ℚ)
  kpConf : List ℚ
  confidence : ℚ
deriving DecidableEq

instance : Inhabited Pose :=
  ⟨⟨0, 0, 0, 0⟩, ⟨0, 0, 0, 0⟩, [], [], 0⟩

/-- `self.center` of `_PersonPose`. -/
def Pose.centerX (p : Pose) : ℚ := (p.bbox.x1 + p.bbox.x2) / 2

/-- `self.center` of `_PersonPose` (y component). -/
def Pose.centerY (p : Pose) : ℚ := (p.bbox.y1 + p.bbox.y2) / 2

/-- The square of `self.diagonal = np.hypot(x2 - x1, y2 - y1)`. -/
def Pose.diagSq (p : Pose) : ℚ :=
  (p.bbox.x2 - p.bbox.x1) ^ 2 + (p.bbox.y2 - p.bbox.y1) ^ 2

/-- Decides `√u + √v < c` for nonnegative rationals `u`, `v`: equivalent to
`0 < c ∧ 0 < c² - u - v ∧ 4uv < (c² - u - v)²` (square twice, tracking
signs).  Used for the source's `avg_diag < 1e-6` guard, whose left side is
a sum of two square roots. -/
def sqrtSumLtConst (u v c : ℚ) : Bool :=
  decide (0 < c) && (decide (0 < c ^ 2 - u - v) && decide (4 * u * v < (c ^ 2 - u - v) ^ 2))

/-- Decides `√d2 / ((√u + √v) / 2) < r`, i.e. `2√d2 < r(√u + √v)`, for
nonnegative `d2`, `u`, `v` and positive `r`: equivalent to
`4·d2 - r²(u+v) < 0 ∨ (4·d2 - r²(u+v))² < 4r⁴uv` (square twice, tracking
signs).  Used for the source's `(dist / avg_diag) < FIGHT_PROXIMITY_RATIO`
comparison, where `dist` and both diagonals are hypotenuses. -/
def distRatioLt (d2 u v r : ℚ) : Bool :=
  let l := 4 * d2 - r ^ 2 * (u + v)
  decide (l < 0) || decide (l ^ 2 < 4 * r ^ 4 * (u * v))

/-- `FightDetector._check_proximity` (fight.py lines 309-314): reject if the
average diagonal is below 1e-6, else require center distance over average
diagonal below `FIGHT_PROXIMITY_RATIO`.  `avg_diag < 1e-6` is
`√diagSqA + √diagSqB < 2e-6`. -/
def checkProximity (pa pb : Pose) : Bool :=
  let d2 := (pa.centerX - pb.centerX) ^ 2 + (pa.centerY - pb.centerY) ^ 2
  if sqrtSumLtConst pa.diagSq pb.diagSq (1 / 500000) then false
  else distRatioLt d2 pa.diagSq pb.diagSq fightProximityRatio

/-- `FightDetector._check_arm_intrusion` (fight.py lines 316-330): a
confident wrist keypoint of either person inside the other's
margin-expanded box. -/
def checkArmIntrusion (pa pb : Pose) : Bool :=
  [(pa, pb), (pb, pa)].any fun pt =>
    let t := pt.2.bbox
    let tx1 := t.x1 - fightArmIntrusionMargin
    let ty1 := t.y1 - fightArmIntrusionMargin
    let tx2 := t.x2 + fightArmIntrusionMargin
    let ty2 := t.y2 + fightArmIntrusionMargin
    wristIndices.any fun wi =>
      decide (fightKeypointConfidenceMin ≤ pt.1.kpConf.getD wi 0) &&
        (let w := pt.1.keypoints.getD wi (0, 0)
         decide (tx1 ≤ w.1) && decide (w.1 ≤ tx2) && decide (ty1 ≤ w.2) && decide (w.2 ≤ ty2))

/-- `FightDetector._check_aggressive_posture` (fight.py lines 332-339): a
confident wrist above (smaller y than) the matching confident shoulder. -/
def checkAggressivePosture (p : Pose) : Bool :=
  wristShoulderPairs.any fun ws =>
    decide (fightKeypointConfidenceMin ≤ p.kpConf.getD ws.1 0) &&
      decide (fightKeypointConfidenceMin ≤ p.kpConf.getD ws.2 0) &&
      decide ((p.keypoints.getD ws.1 (0, 0)).2 < (p.keypoints.getD ws.2 (0, 0)).2)

/-- `FightDetector._compute_velocities` (fight.py lines 341-373) with every
velocity represented by its square: for each current pose, find the
previous box of highest IoU; below IoU 0.2 (or no previous data) the
velocity is 0; otherwise it is the maximum limb-keypoint displacement,
here `dx² + dy²` instead of `hypot(dx, dy)` (squaring is monotone on
nonnegative values, so the maximum and every threshold comparison agree). -/
def computeVelocitiesSq (prevKps : List (List (ℚ × ℚ))) (prevBbs : List BoxXY)
    (poses : List Pose) : List ℚ :=
  if prevKps = [] ∨ prevBbs = [] then poses.map (fun _ => 0)
  else
    poses.map fun pose =>
      let best := (prevBbs.zip prevKps).foldl
        (fun (acc : ℚ × Option (List (ℚ × ℚ))) pk =>
          let i := computeIouXyxy pose.bbox pk.1
          if acc.1 < i then (i, some pk.2) else acc)
        (0, none)
      match best.2 with
      | none => 0
      | some prevKp =>
        if best.1 < 1 / 5 then 0
        else
          limbIndices.foldl
            (fun maxVel li =>
              if pose.kpConf.getD li 0 < fightKeypointConfidenceMin then maxVel
              else
                let dx := (pose.keypoints.getD li (0, 0)).1 - (prevKp.getD li (0, 0)).1
                let dy := (pose.keypoints.getD li (0, 0)).2 - (prevKp.getD li (0, 0)).2
                let v := dx ^ 2 + dy ^ 2
                if maxVel < v then v else maxVel)
            0

/-- `criteria_met` for one pair (fight.py lines 190-205): arm intrusion,
rapid movement (`max(vel_a, vel_b) > FIGHT_VELOCITY_THRESHOLD`, compared
in squares), aggressive posture. -/
def critCount (velSq : List ℚ) (idxA idxB : ℕ) (pa pb : Pose) : ℕ :=
  (if checkArmIntrusion pa pb then 1 else 0) +
    (if fightVelocityThreshold ^ 2 < max (velSq.getD idxA 0) (velSq.getD idxB 0) then 1 else 0) +
    (if checkAggressivePosture pa || checkAggressivePosture pb then 1 else 0)

/-- The inner `for j, prev_bb in enumerate(prev_bbs)` scan of
`FightDetector._assign_slots` (fight.py lines 285-293): running best IoU
(initialized to the 0.3 minimum) and best index, skipping consumed
previous detections; only a strictly greater IoU replaces the best. -/
def bestMatch (b : BoxXY) (used : List ℕ) :
    List BoxXY → ℕ → ℚ → Option ℕ → Option ℕ
  | [], _, _, bestJ => bestJ
  | bb :: rest, j, bestIou, bestJ =>
    if j ∈ used then bestMatch b used rest (j + 1) bestIou bestJ
    else
      let i := computeIouXyxy b bb
      if bestIou < i then bestMatch b used rest (j + 1) i (some j)
      else bestMatch b used rest (j + 1) bestIou bestJ

/-- The matching phase of `_assign_slots` (fight.py lines 281-297): each
current pose in input order takes the best unmatched previous detection
above the threshold, consuming it. -/
def matchPoses (prevBbs : List BoxXY) (prevSlots : List ℕ) (used : List ℕ) :
    List Pose → List (Option ℕ)
  | [] => []
  | p :: rest =>
    match bestMatch p.bbox used prevBbs 0 (3 / 10) none with
    | some j => some (prevSlots.getD j 0) :: matchPoses prevBbs prevSlots (j :: used) rest
    | none => none :: matchPoses prevBbs prevSlots used rest

/-- The fresh-slot phase of `_assign_slots` (fight.py lines 299-303):
unmatched poses receive the camera's monotonically increasing next slot. -/
def fillFresh (next : ℕ) : List (Option ℕ) → List ℕ × ℕ
  | [] => ([], next)
  | some s :: rest =>
    let r := fillFresh next rest
    (s :: r.1, r.2)
  | none :: rest =>
    let r := fillFresh (next + 1) rest
    (next :: r.1, r.2)

/-- `FightDetector._assign_slots` (fight.py lines 264-305) for one camera:
given the camera's next-slot counter and previous frame's boxes and slot
ids, return the slots for the current poses and the updated counter.  An
absent previous frame assigns fresh slots to every pose. -/
def assignSlots (nextSlot : ℕ) (prevBbs : List BoxXY) (prevSlots : List ℕ)
    (poses : List Pose) : List ℕ × ℕ :=
  if prevBbs = [] ∨ prevSlots = [] then
    ((List.range poses.length).map (fun k => nextSlot + k), nextSlot + poses.length)
  else
    fillFresh nextSlot (matchPoses prevBbs prevSlots [] poses)

/-- The per-camera mutable state of `FightDetector` (fight.py lines 76-83):
previous keypoints, previous boxes, last fight time (`dict.get` default 0),
next slot id, previous slot ids, and the pair-key → sustain-buffer dict. -/
structure FightState where
  prevKeypoints : List (List (ℚ × ℚ))
  prevBboxes : List BoxXY
  lastFightTime : ℚ
  nextSlot : ℕ
  prevSlots : List ℕ
  history : List ((ℕ × ℕ) × List Bool)
deriving DecidableEq

/-- The state of a camera before its first cycle. -/
def initFightState : FightState := ⟨[], [], 0, 0, [], []⟩

/-- Dict lookup in the sustain-buffer history. -/
def lookupBuf (h : List ((ℕ × ℕ) × List Bool)) (k : ℕ × ℕ) : Option (List Bool) :=
  (h.find? (fun kv => kv.1 = k)).map (fun kv => kv.2)

/-- Dict assignment in the sustain-buffer history. -/
def setBuf (h : List ((ℕ × ℕ) × List Bool)) (k : ℕ × ℕ) (b : List Bool) :
    List ((ℕ × ℕ) × List Bool) :=
  if (h.find? (fun kv => kv.1 = k)).isSome then
    h.map (fun kv => if kv.1 = k then (k, b) else kv)
  else h ++ [(k, b)]

/-- `deque(maxlen=FIGHT_SUSTAIN_FRAMES).append`: append, dropping the
oldest entries beyond the capacity. -/
def pushBuf (buf : List Bool) (v : Bool) : List Bool :=
  let b := buf ++ [v]
  if fightSustainFrames < b.length then b.drop (b.length - fightSustainFrames) else b

/-- `combinations(range(n), 2)` in lexicographic order (fight.py line 182). -/
def pairsOf (n : ℕ) : List (ℕ × ℕ) :=
  (List.range n).flatMap fun i =>
    (List.range n).filterMap fun j => if i < j then some (i, j) else none

/-- The fight event synthesized on firing (fight.py lines 224-243): union
box of the two poses, confidence from the weaker detection boosted by the
criteria surplus, capped at 0.95. -/
def mkFightEvent (camId nowIso : String) (pa pb : Pose) (crit : ℕ) : Event :=
  let baseConf := min pa.confidence pb.confidence
  let fightConf := min (19 / 20) (baseConf + ((crit - fightMinCriteria : ℕ) : ℚ) * (3 / 20))
  let mx1 := min pa.bbox.x1 pb.bbox.x1
  let my1 := min pa.bbox.y1 pb.bbox.y1
  let mx2 := max pa.bbox.x2 pb.bbox.x2
  let my2 := max pa.bbox.y2 pb.bbox.y2
  ⟨camId, "fight_detected", nowIso, pyRound 3 fightConf,
    ⟨pyRound 4 mx1, pyRound 4 my1, pyRound 4 (mx2 - mx1), pyRound 4 (my2 - my1)⟩,
    none⟩

/-- The `for idx_a, idx_b in combinations(...)` loop of
`FightDetector.detect` (fight.py lines 182-248), over the remaining pair
list, carrying the history dict, the active pair-key set, and the
last-fight time.  Firing appends the single fight event and breaks. -/
def pairLoopGo (camId nowIso : String) (poses : List Pose) (slots : List ℕ)
    (velSq : List ℚ) (now : ℚ) :
    List (ℕ × ℕ) → List ((ℕ × ℕ) × List Bool) → List (ℕ × ℕ) → ℚ →
      List ((ℕ × ℕ) × List Bool) × List (ℕ × ℕ) × ℚ × List Event
  | [], hist, act, lf => (hist, act, lf, [])
  | ij :: rest, hist, act, lf =>
    let pa := poses.getD ij.1 default
    let pb := poses.getD ij.2 default
    if ¬ checkProximity pa pb then pairLoopGo camId nowIso poses slots velSq now rest hist act lf
    else
      let crit := critCount velSq ij.1 ij.2 pa pb
      let passed := decide (fightMinCriteria ≤ crit)
      let key := (min (slots.getD ij.1 0) (slots.getD ij.2 0),
                  max (slots.getD ij.1 0) (slots.getD ij.2 0))
      let act' := key :: act
      let buf := pushBuf ((lookupBuf hist key).getD []) passed
      let hist' := setBuf hist key buf
      if buf.length = fightSustainFrames ∧ buf.all (fun x => x) then
        if fightEventCooldownSecs ≤ now - lf then
          (hist', act', now, [mkFightEvent camId nowIso pa pb crit])
        else pairLoopGo camId nowIso poses slots velSq now rest hist' act' lf
      else pairLoopGo camId nowIso poses slots velSq now rest hist' act' lf

/-- The person event pushed for each detected person (fight.py lines
142-149). -/
def mkPersonEvent (camId nowIso : String) (p : Pose) : Event :=
  ⟨camId, "person_detected", nowIso, pyRound 3 p.confidence, p.bboxNorm,
    some "fight_detector"⟩

/-- `FightDetector.detect` (fight.py lines 106-260) for one camera, from
the `_PersonPose` list onward (the YOLO-pose inference that produces the
poses is the external capability; each detected person box is assumed to
carry its keypoint row, as in every normal pose-model result).  Returns
the updated camera state, the person events, and the fight events. -/
def detectFight (st : FightState) (camId nowIso : String) (poses : List Pose)
    (now : ℚ) : FightState × List Event × List Event :=
  let personEvents := poses.map (mkPersonEvent camId nowIso)
  let slotsNext := assignSlots st.nextSlot st.prevBboxes st.prevSlots poses
  let slots := slotsNext.1
  let res :=
    if 2 ≤ poses.length then
      let velSq := computeVelocitiesSq st.prevKeypoints st.prevBboxes poses
      pairLoopGo camId nowIso poses slots velSq now (pairsOf poses.length)
        st.history [] st.lastFightTime
    else (st.history, [], st.lastFightTime, [])
  let hist := (res.1.filter (fun kv => kv.1 ∈ res.2.1))
  (⟨poses.map Pose.keypoints, poses.map Pose.bbox, res.2.2.1, slotsNext.2, slots, hist⟩,
    personEvents, res.2.2.2)

/-- Whether pair `(i, j)` "passes the heuristic" this cycle as the spec
words it: the mandatory proximity gate holds and at least
`FIGHT_MIN_CRITERIA` of the remaining criteria fire — exactly the
quantities `FightDetector.detect` computes for the pair. -/
def pairPasses (st : FightState) (poses : List Pose) (i j : ℕ) : Bool :=
  let velSq := computeVelocitiesSq st.prevKeypoints st.prevBboxes poses
  let pa := poses.getD i default
  let pb := poses.getD j default
  checkProximity pa pb && decide (fightMinCriteria ≤ critCount velSq i j pa pb)

/-- The pair keys a pair list would mark active: both entities co-present
and proximity-gated. -/
def keysOf (poses : List Pose) (slots : List ℕ) (ps : List (ℕ × ℕ)) : List (ℕ × ℕ) :=
  ps.filterMap fun ij =>
    if checkProximity (poses.getD ij.1 default) (poses.getD ij.2 default) then
      some (min (slots.getD ij.1 0) (slots.getD ij.2 0),
            max (slots.getD ij.1 0) (slots.getD ij.2 0))
    else none

/-- All pair keys active this cycle for a pose list and its slots. -/
def activeKeys (poses : List Pose) (slots : List ℕ) : List (ℕ × ℕ) :=
  keysOf poses slots (pairsOf poses.length)

/-!  Concrete fixtures used by counterexamples and witnesses. -/

/-- A person event from the person detector (no source annotation). -/
def mergeEvA : Event := ⟨"cam_0", "person_detected", "ts", 3 / 5, ⟨0, 0, 1 / 2, 1 / 2⟩, none⟩

/-- A person event from the fight detector overlapping `mergeEvA` at IoU
9/10. -/
def mergeEvB : Event :=
  ⟨"cam_0", "person_detected", "ts", 9 / 10, ⟨1 / 38, 0, 1 / 2, 1 / 2⟩, some "fight_detector"⟩

/-- A person event from the fight detector (carries a source annotation). -/
def farEvA : Event :=
  ⟨"cam_0", "person_detected", "ts", 3 / 5, ⟨0, 0, 1 / 4, 1 / 4⟩, some "fight_detector"⟩

/-- A person event overlapping `farEvA` at IoU exactly 1/10. -/
def farEvB : Event :=
  ⟨"cam_0", "person_detected", "ts", 7 / 10, ⟨9 / 44, 0, 1 / 4, 1 / 4⟩, none⟩

/-- A person event as produced by the person detector. -/
def orderPersonEv : Event := ⟨"cam_0", "person_detected", "ts", 9 / 10, ⟨0, 0, 1 / 2, 1 / 2⟩, none⟩

/-- A person event as produced by the fight detector, overlapping
`orderPersonEv` (same box). -/
def orderPersonEvB : Event :=
  ⟨"cam_0", "person_detected", "ts", 3 / 5, ⟨0, 0, 1 / 2, 1 / 2⟩, some "fight_detector"⟩

/-- A fight event as produced by the fight detector. -/
def orderFightEv : Event := ⟨"cam_0", "fight_detected", "ts", 9 / 10, ⟨0, 0, 1, 1⟩, none⟩

/-- A motion event as produced by the motion detector. -/
def orderMotionEv : Event := ⟨"cam_0", "motion", "ts", 1, ⟨0, 0, 1, 1⟩, none⟩

/-- A parsed weapon record for gate fixtures. -/
def gateWeapon : Weapon := ⟨"handgun", 9 / 10, true, ⟨1 / 10, 1 / 5, 1 / 20, 1 / 10⟩⟩

/-- A detection with the given normalized corner box (keypoints are
immaterial for slot assignment). -/
def mkBoxPose (b : BoxXY) : Pose := ⟨⟨0, 0, 0, 0⟩, b, [], [], 1 / 2⟩

/-- A detected person with a confident wrist (index 9) raised above the
shoulder (index 5) and reaching to the right: its wrist lies inside
`witPoseB`'s box, so the pair (A, B) meets arm-intrusion and
aggressive-posture, and their boxes are close enough for the proximity
gate. -/
def witPoseA : Pose :=
  ⟨⟨1 / 10, 1 / 10, 3 / 10, 4 / 5⟩, ⟨1 / 10, 1 / 10, 2 / 5, 9 / 10⟩,
    [(0, 0), (0, 0), (0, 0), (0, 0), (0, 0), (1 / 5, 1 / 2), (0, 0), (0, 0), (0, 0),
      (2 / 5, 3 / 10), (1 / 5, 3 / 5)],
    [0, 0, 0, 0, 0, 9 / 10, 0, 0, 0, 9 / 10, 0], 7 / 10⟩

/-- A second person standing next to `witPoseA` (no confident keypoints of
its own). -/
def witPoseB : Pose :=
  ⟨⟨7 / 20, 1 / 10, 3 / 10, 4 / 5⟩, ⟨7 / 20, 1 / 10, 13 / 20, 9 / 10⟩, [], [], 4 / 5⟩

/-- A third person, co-present and proximity-gated with `witPoseA`. -/
def witPoseC : Pose :=
  ⟨⟨1 / 5, 1 / 10, 3 / 10, 4 / 5⟩, ⟨1 / 5, 1 / 10, 1 / 2, 9 / 10⟩, [], [], 3 / 5⟩

/-- A camera state in which pairs (0,1) and (0,2) both hold two cycles of
"pass" evidence, the previous frame saw all three people, and the cooldown
clock permits firing. -/
def breakState : FightState :=
  ⟨[[], [], []],
    [⟨1 / 10, 1 / 10, 2 / 5, 9 / 10⟩, ⟨7 / 20, 1 / 10, 13 / 20, 9 / 10⟩,
      ⟨1 / 5, 1 / 10, 1 / 2, 9 / 10⟩],
    0, 3, [0, 1, 2], [((0, 1), [true, true]), ((0, 2), [true, true])]⟩

/-- The sustain buffer the pair key (0,1) holds right after a two-person
cycle on poses `[a, b]` with slots `[0, 1]`: the previous buffer with this
cycle's pass/fail pushed (capped at the sustain window). -/
def pairBuf (st : FightState) (a b : Pose) : List Bool :=
  pushBuf ((lookupBuf st.history (0, 1)).getD [])
    (decide (fightMinCriteria ≤ critCount
      (computeVelocitiesSq st.prevKeypoints st.prevBboxes [a, b]) 0 1 a b))

/-- The two IoU helpers are the same computation. -/
theorem computeIouXyxy_eq_computeIou : computeIouXyxy = computeIou := rfl

/-- C10 counterexample: the claim "for every box a, iou(a,a) = 1.0" fails.
For the proper but tiny box `(0, 0, 1e-5, 1e-5)` the union (1e-10) is
below the source's 1e-8 guard, so both IoU helpers return 0, not 1. -/
theorem iou_identity_counterexample :
    computeIou ⟨0, 0, 1 / 100000, 1 / 100000⟩ ⟨0, 0, 1 / 100000, 1 / 100000⟩ = 0 ∧
      computeIouXyxy ⟨0, 0, 1 / 100000, 1 / 100000⟩ ⟨0, 0, 1 / 100000, 1 / 100000⟩ = 0 ∧
      (0 : ℚ) ≠ 1 := by
  refine ⟨by norm_num [computeIou], by norm_num [computeIouXyxy], by norm_num⟩

/-- C10 (amended): IoU is symmetric for all boxes; `iou(a,a) = 1` for every
well-formed box whose area exceeds the 1e-8 union guard; IoU of two
disjoint boxes is 0 — and the pipeline's and the fight detector's IoU
helpers agree. -/
theorem iou_algebraic_properties :
    (∀ a b : BoxXY, computeIou a b = computeIou b a) ∧
      (∀ a : BoxXY, a.x1 ≤ a.x2 → a.y1 ≤ a.y2 →
        (a.x2 - a.x1) * (a.y2 - a.y1) > 1 / 100000000 → computeIou a a = 1) ∧
      (∀ a b : BoxXY,
        (min a.x2 b.x2 ≤ max a.x1 b.x1 ∨ min a.y2 b.y2 ≤ max a.y1 b.y1) →
        computeIou a b = 0) ∧
      (∀ a b : BoxXY, computeIouXyxy a b = computeIou a b) := by
  refine ⟨?_, ?_, ?_, fun a b => rfl⟩
  · intro a b
    unfold computeIou
    rw [max_comm a.x1 b.x1, max_comm a.y1 b.y1, min_comm a.x2 b.x2, min_comm a.y2 b.y2,
      add_comm ((a.x2 - a.x1) * (a.y2 - a.y1)) ((b.x2 - b.x1) * (b.y2 - b.y1))]
  · intro a hx hy harea
    unfold computeIou
    simp only [max_self, min_self]
    rw [max_eq_right (sub_nonneg.mpr hx), max_eq_right (sub_nonneg.mpr hy)]
    have hsimp : (a.x2 - a.x1) * (a.y2 - a.y1) + (a.x2 - a.x1) * (a.y2 - a.y1) -
        (a.x2 - a.x1) * (a.y2 - a.y1) = (a.x2 - a.x1) * (a.y2 - a.y1) := by ring
    rw [hsimp, if_pos harea]
    exact div_self (ne_of_gt (lt_trans (by norm_num) harea))
  · intro a b hdisj
    dsimp only [computeIou]
    have hzero : max 0 (min a.x2 b.x2 - max a.x1 b.x1) * max 0 (min a.y2 b.y2 - max a.y1 b.y1) = 0 := by
      rcases hdisj with h | h
      · rw [max_eq_left (sub_nonpos.mpr h), zero_mul]
      · rw [max_eq_left (sub_nonpos.mpr h), mul_zero]
    rw [hzero]
    split
    · exact zero_div _
    · rfl

/-- C10 witness: the amended properties at concrete boxes. -/
theorem iou_algebraic_properties_witness :
    computeIou ⟨0, 0, 1, 1⟩ ⟨(1 : ℚ) / 2, 0, 1, 1⟩ = computeIou ⟨(1 : ℚ) / 2, 0, 1, 1⟩ ⟨0, 0, 1, 1⟩ ∧
      computeIou ⟨0, 0, 1, 1⟩ ⟨0, 0, 1, 1⟩ = 1 ∧
      computeIou ⟨0, 0, 1, 1⟩ ⟨2, 2, 3, 3⟩ = 0 := by
  refine ⟨iou_algebraic_properties.1 ⟨0, 0, 1, 1⟩ ⟨(1 : ℚ) / 2, 0, 1, 1⟩,
    iou_algebraic_properties.2.1 ⟨0, 0, 1, 1⟩ (by norm_num) (by norm_num) (by norm_num),
    iou_algebraic_properties.2.2.1 ⟨0, 0, 1, 1⟩ ⟨2, 2, 3, 3⟩ (by left; norm_num)⟩

/-- C6: for any two overlapping person events (IoU above the 0.5 merge
threshold), `_deduplicate_person_events` keeps exactly the
higher-confidence one — the first on ties, since the scan keeps `i` when
`conf_i ≥ conf_j` — and the kept event's confidence is the maximum of the
two. -/
theorem dedup_merge_keeps_highest (e1 e2 : Event)
    (h1 : e1.eventType = "person_detected") (h2 : e2.eventType = "person_detected")
    (hiou : computeIou (toXyxy e1.boundingBox) (toXyxy e2.boundingBox) > personDedupIouThreshold) :
    deduplicatePersonEvents [e1, e2] =
      [clearSource (if e2.confidence ≤ e1.confidence then e1 else e2)] ∧
      (if e2.confidence ≤ e1.confidence then e1 else e2).confidence =
        max e1.confidence e2.confidence := by
  constructor
  · by_cases hc : e2.confidence ≤ e1.confidence
    · simp [deduplicatePersonEvents, dedupKept, dedupOuter, dedupInner, h1, h2, hiou, hc,
        List.range_succ, List.range', ge_iff_le]
    · simp [deduplicatePersonEvents, dedupKept, dedupOuter, dedupInner, h1, h2, hiou, hc,
        List.range_succ, List.range', ge_iff_le]
  · by_cases hc : e2.confidence ≤ e1.confidence
    · simp [hc, max_eq_left hc]
    · simp [hc, max_eq_right (le_of_not_le hc)]

/-- C6 witness: confidences 0.6 and 0.9 at IoU 9/10 merge to the single
0.9-confidence event. -/
theorem dedup_merge_keeps_highest_witness :
    computeIou (toXyxy mergeEvA.boundingBox) (toXyxy mergeEvB.boundingBox) = 9 / 10 ∧
      deduplicatePersonEvents [mergeEvA, mergeEvB] = [clearSource mergeEvB] ∧
      (clearSource mergeEvB).confidence = 9 / 10 := by
  have h := dedup_merge_keeps_highest mergeEvA mergeEvB rfl rfl
    (by norm_num [computeIou, toXyxy, personDedupIouThreshold, mergeEvA, mergeEvB])
  refine ⟨by norm_num [computeIou, toXyxy, mergeEvA, mergeEvB], ?_, by norm_num [clearSource, mergeEvB]⟩
  have hc : ¬ (mergeEvB.confidence ≤ mergeEvA.confidence) := by norm_num [mergeEvA, mergeEvB]
  simpa [hc] using h.1

/-- C7 counterexample: the claim "every event below the merge threshold
against all other events passes through unchanged in all its fields"
fails: at IoU exactly 1/10 both events are kept, but the deduplicator pops
the "source" key, so an event carrying a source annotation is modified. -/
theorem dedup_passthrough_counterexample :
    computeIou (toXyxy farEvA.boundingBox) (toXyxy farEvB.boundingBox) = 1 / 10 ∧
      deduplicatePersonEvents [farEvA, farEvB] ≠ [farEvA, farEvB] ∧
      ¬ farEvA ∈ deduplicatePersonEvents [farEvA, farEvB] := by
  have hev : deduplicatePersonEvents [farEvA, farEvB] = [clearSource farEvA, clearSource farEvB] := by
    norm_num [deduplicatePersonEvents, dedupKept, dedupOuter, dedupInner, computeIou, toXyxy,
      personDedupIouThreshold, farEvA, farEvB, List.range_succ, List.range']
  refine ⟨by norm_num [computeIou, toXyxy, farEvA, farEvB], ?_, ?_⟩
  · rw [hev]
    simp [farEvA, clearSource]
  · rw [hev]
    simp [farEvA, farEvB, clearSource]

/-- C7 (amended): two person events below the merge threshold are both
kept, in order, each unchanged except that the internal "source"
annotation is removed. -/
theorem dedup_below_threshold_passthrough (e1 e2 : Event)
    (h1 : e1.eventType = "person_detected") (h2 : e2.eventType = "person_detected")
    (hiou : computeIou (toXyxy e1.boundingBox) (toXyxy e2.boundingBox) ≤ personDedupIouThreshold) :
    deduplicatePersonEvents [e1, e2] = [clearSource e1, clearSource e2] := by
  simp [deduplicatePersonEvents, dedupKept, dedupOuter, dedupInner, h1, h2, not_lt.mpr hiou,
    List.range_succ, List.range']

/-- C7 witness: the amended pass-through at IoU 1/10. -/
theorem dedup_below_threshold_passthrough_witness :
    computeIou (toXyxy farEvA.boundingBox) (toXyxy farEvB.boundingBox) ≤ personDedupIouThreshold ∧
      deduplicatePersonEvents [farEvA, farEvB] = [clearSource farEvA, clearSource farEvB] := by
  refine ⟨by norm_num [computeIou, toXyxy, personDedupIouThreshold, farEvA, farEvB], ?_⟩
  exact dedup_below_threshold_passthrough farEvA farEvB rfl rfl
    (by norm_num [computeIou, toXyxy, personDedupIouThreshold, farEvA, farEvB])

/-- Every event kept by the suppression pass over a list of person events
is itself a person event (it is one of the inputs, minus its source
annotation). -/
theorem mem_dedupKept_eventType (ps : List Event)
    (hps : ∀ e ∈ ps, e.eventType = "person_detected") :
    ∀ e ∈ dedupKept ps, e.eventType = "person_detected" := by
  intro e he
  unfold dedupKept at he
  obtain ⟨k, hk, rfl⟩ := List.mem_map.mp he
  have hklt : k < ps.length := List.mem_range.mp (List.mem_filter.mp hk).1
  show (ps.getD k default).eventType = "person_detected"
  exact hps _ (by rw [List.getD_eq_getElem ps default hklt]; exact List.getElem_mem hklt)

/-- `_deduplicate_person_events` always returns the non-person events
first, followed by only person events: the merged person block is exactly
the person-typed part of its own output. -/
theorem deduplicatePersonEvents_split (evs : List Event) :
    deduplicatePersonEvents evs
      = evs.filter (fun e => ¬ e.eventType = "person_detected")
        ++ (deduplicatePersonEvents evs).filter (fun e => e.eventType = "person_detected") := by
  have hmem : ∀ e ∈ evs.filter (fun e => e.eventType = "person_detected"),
      e.eventType = "person_detected" := by
    intro e he
    simpa using (List.mem_filter.mp he).2
  have h1 : List.filter (fun e => decide (e.eventType = "person_detected"))
      (List.filter (fun e => decide ¬ e.eventType = "person_detected") evs) = [] := by
    rw [List.filter_eq_nil_iff]
    intro e he
    simp only [List.mem_filter] at he
    simp only [decide_eq_true_eq]
    exact of_decide_eq_true he.2
  dsimp only [deduplicatePersonEvents]
  split_ifs with hlen
  · have h2 : List.filter (fun e => decide (e.eventType = "person_detected"))
        (List.map clearSource (List.filter (fun e => decide (e.eventType = "person_detected")) evs))
        = List.map clearSource (List.filter (fun e => decide (e.eventType = "person_detected")) evs) := by
      rw [List.filter_eq_self]
      intro e he
      obtain ⟨x, hx, rfl⟩ := List.mem_map.mp he
      simpa [clearSource] using hmem x hx
    rw [List.filter_append, h1, h2, List.nil_append]
  · have h2 : List.filter (fun e => decide (e.eventType = "person_detected"))
        (dedupKept (List.filter (fun e => decide (e.eventType = "person_detected")) evs))
        = dedupKept (List.filter (fun e => decide (e.eventType = "person_detected")) evs) := by
      rw [List.filter_eq_self]
      intro e he
      simpa using mem_dedupKept_eventType _ hmem e he
    rw [List.filter_append, h1, h2, List.nil_append]

/-- C8 counterexample: the claim "person events from the first detector
precede fight events in the emitted list" fails.  With one person event
from the person detector and one person plus one fight event from the
fight detector, the dedup pass (`return other_events + kept`) puts the
fight event first, before the merged person event. -/
theorem pipeline_emission_order_counterexample :
    (runDetectors "cam_0" (pipelineDetectors (some [orderPersonEv])
        (some [orderPersonEvB, orderFightEv]) (some [orderMotionEv]) (some []))).1
      = [orderFightEv, clearSource orderPersonEv, orderMotionEv] ∧
      orderFightEv.eventType = "fight_detected" ∧
      (clearSource orderPersonEv).eventType = "person_detected" := by
  refine ⟨?_, rfl, rfl⟩
  have hrun : (runDetectors "cam_0" (pipelineDetectors (some [orderPersonEv])
      (some [orderPersonEvB, orderFightEv]) (some [orderMotionEv]) (some []))).1
      = deduplicatePersonEvents [orderPersonEv, orderPersonEvB, orderFightEv] ++ [orderMotionEv] := by
    simp [runDetectors, runDetectorsAux, runDetectorStep, pipelineDetectors]
  have hper : List.filter (fun e => decide (e.eventType = "person_detected"))
      [orderPersonEv, orderPersonEvB, orderFightEv] = [orderPersonEv, orderPersonEvB] := by
    simp [orderPersonEv, orderPersonEvB, orderFightEv]
  have hoth : List.filter (fun e => decide ¬ e.eventType = "person_detected")
      [orderPersonEv, orderPersonEvB, orderFightEv] = [orderFightEv] := by
    simp [orderPersonEv, orderPersonEvB, orderFightEv]
  have hded : deduplicatePersonEvents [orderPersonEv, orderPersonEvB, orderFightEv]
      = [orderFightEv, clearSource orderPersonEv] := by
    dsimp only [deduplicatePersonEvents]
    rw [hper, hoth]
    norm_num [dedupKept, dedupOuter, dedupInner, computeIou, toXyxy, personDedupIouThreshold,
      clearSource, orderPersonEv, orderPersonEvB, List.range_succ, List.range']
  rw [hrun, hded]
  simp

/-- C8 (amended): one pipeline invocation emits, in order, the non-person
events accumulated from the person and fight detectors (in detector
order), then the deduplicated person events, then the motion events, then
the weapon events.  In particular fight events precede the merged person
events, because the dedup pass after the fight detector returns
non-person events first. -/
theorem pipeline_emission_order (camId : String) (pe fe me we : List Event) :
    (runDetectors camId (pipelineDetectors (some pe) (some fe) (some me) (some we))).1
      = (pe ++ fe).filter (fun e => ¬ e.eventType = "person_detected")
        ++ (deduplicatePersonEvents (pe ++ fe)).filter (fun e => e.eventType = "person_detected")
        ++ me ++ we := by
  have hrun : (runDetectors camId (pipelineDetectors (some pe) (some fe) (some me) (some we))).1
      = deduplicatePersonEvents (pe ++ fe) ++ me ++ we := by
    simp [runDetectors, runDetectorsAux, runDetectorStep, pipelineDetectors]
  rw [hrun, ← deduplicatePersonEvents_split]

/-- The events accumulated by the detector loop do not depend on the log
accumulator. -/
theorem runDetectorsAux_events_logfree (camId : String) (ds : List DetectorSpec) :
    ∀ evs lg lg', (runDetectorsAux camId (evs, lg) ds).1 = (runDetectorsAux camId (evs, lg') ds).1 := by
  induction ds with
  | nil => intro evs lg lg'; rfl
  | cons d ds ih =>
    intro evs lg lg'
    show (runDetectorsAux camId (runDetectorStep camId (evs, lg) d) ds).1
      = (runDetectorsAux camId (runDetectorStep camId (evs, lg') d) ds).1
    by_cases he : d.enabled = true
    · cases hr : d.result with
      | none =>
        rw [show runDetectorStep camId (evs, lg) d = (evs, lg ++ [(d.name, camId)]) from by
            simp [runDetectorStep, he, hr],
          show runDetectorStep camId (evs, lg') d = (evs, lg' ++ [(d.name, camId)]) from by
            simp [runDetectorStep, he, hr]]
        exact ih evs _ _
      | some es =>
        rw [show runDetectorStep camId (evs, lg) d
            = ((if d.isFight then deduplicatePersonEvents (evs ++ es) else evs ++ es), lg) from by
            simp [runDetectorStep, he, hr],
          show runDetectorStep camId (evs, lg') d
            = ((if d.isFight then deduplicatePersonEvents (evs ++ es) else evs ++ es), lg') from by
            simp [runDetectorStep, he, hr]]
        exact ih _ _ _
    · rw [show runDetectorStep camId (evs, lg) d = (evs, lg) from by simp [runDetectorStep, he],
        show runDetectorStep camId (evs, lg') d = (evs, lg') from by simp [runDetectorStep, he]]
      exact ih _ _ _

/-- The detector loop only appends to the log accumulator. -/
theorem runDetectorsAux_logs_append (camId : String) (ds : List DetectorSpec) :
    ∀ evs lg, (runDetectorsAux camId (evs, lg) ds).2 = lg ++ (runDetectorsAux camId (evs, []) ds).2 := by
  induction ds with
  | nil => intro evs lg; simp [runDetectorsAux]
  | cons d ds ih =>
    intro evs lg
    show (runDetectorsAux camId (runDetectorStep camId (evs, lg) d) ds).2
      = lg ++ (runDetectorsAux camId (runDetectorStep camId (evs, []) d) ds).2
    by_cases he : d.enabled = true
    · cases hr : d.result with
      | none =>
        rw [show runDetectorStep camId (evs, lg) d = (evs, lg ++ [(d.name, camId)]) from by
            simp [runDetectorStep, he, hr],
          show runDetectorStep camId (evs, []) d = (evs, [] ++ [(d.name, camId)]) from by
            simp [runDetectorStep, he, hr]]
        rw [ih evs (lg ++ [(d.name, camId)]), ih evs ([] ++ [(d.name, camId)])]
        simp
      | some es =>
        rw [show runDetectorStep camId (evs, lg) d
            = ((if d.isFight then deduplicatePersonEvents (evs ++ es) else evs ++ es), lg) from by
            simp [runDetectorStep, he, hr],
          show runDetectorStep camId (evs, []) d
            = ((if d.isFight then deduplicatePersonEvents (evs ++ es) else evs ++ es), []) from by
            simp [runDetectorStep, he, hr]]
        exact ih _ lg
    · rw [show runDetectorStep camId (evs, lg) d = (evs, lg) from by simp [runDetectorStep, he],
        show runDetectorStep camId (evs, []) d = (evs, []) from by simp [runDetectorStep, he]]
      exact ih _ lg

/-- C9: a detector whose `detect` call raises contributes zero events —
the pipeline's event output for the cycle is exactly what it would have
been with that detector absent from the detector list — and the failure
is logged with the detector's name and the camera id. -/
theorem detector_failure_isolation (camId : String) (l1 l2 : List DetectorSpec)
    (d : DetectorSpec) (hres : d.result = none) (hen : d.enabled = true) :
    (runDetectors camId (l1 ++ d :: l2)).1 = (runDetectors camId (l1 ++ l2)).1 ∧
      (d.name, camId) ∈ (runDetectors camId (l1 ++ d :: l2)).2 := by
  have main : ∀ l1 : List DetectorSpec, ∀ acc : List Event × List (String × String),
      (runDetectorsAux camId acc (l1 ++ d :: l2)).1 = (runDetectorsAux camId acc (l1 ++ l2)).1 ∧
        (d.name, camId) ∈ (runDetectorsAux camId acc (l1 ++ d :: l2)).2 := by
    intro l1
    induction l1 with
    | nil =>
      intro acc
      constructor
      · show (runDetectorsAux camId (runDetectorStep camId acc d) l2).1 = _
        rw [show runDetectorStep camId acc d = (acc.1, acc.2 ++ [(d.name, camId)]) by
          simp [runDetectorStep, hres, hen]]
        exact runDetectorsAux_events_logfree camId l2 acc.1 (acc.2 ++ [(d.name, camId)]) acc.2
      · show (d.name, camId) ∈ (runDetectorsAux camId (runDetectorStep camId acc d) l2).2
        rw [show runDetectorStep camId acc d = (acc.1, acc.2 ++ [(d.name, camId)]) by
          simp [runDetectorStep, hres, hen]]
        rw [runDetectorsAux_logs_append]
        simp
    | cons x xs ih =>
      intro acc
      simpa [runDetectorsAux] using ih (runDetectorStep camId acc x)
  exact main l1 ([], [])

/-- C9 witness: a failing motion detector between a working person
detector and a working weapon detector. -/
theorem detector_failure_isolation_witness :
    (runDetectors "cam_0"
        ([⟨"person_detector", true, false, some [orderPersonEv]⟩] ++
          ⟨"motion_detector", true, false, none⟩ ::
            [⟨"weapon_detector", true, false, some [orderMotionEv]⟩])).1
      = (runDetectors "cam_0"
          ([⟨"person_detector", true, false, some [orderPersonEv]⟩] ++
            [⟨"weapon_detector", true, false, some [orderMotionEv]⟩])).1 ∧
      ("motion_detector", "cam_0") ∈ (runDetectors "cam_0"
        ([⟨"person_detector", true, false, some [orderPersonEv]⟩] ++
          ⟨"motion_detector", true, false, none⟩ ::
            [⟨"weapon_detector", true, false, some [orderMotionEv]⟩])).2 :=
  detector_failure_isolation "cam_0" [⟨"person_detector", true, false, some [orderPersonEv]⟩]
    [⟨"weapon_detector", true, false, some [orderMotionEv]⟩]
    ⟨"motion_detector", true, false, none⟩ rfl rfl

/-- Updating the per-camera last-call dict makes the camera's entry the
stored time. -/
theorem lookupAssoc_setAssoc (m : List (String × ℚ)) (k : String) (v : ℚ) :
    lookupAssoc (setAssoc m k v) k = some v := by
  have hmap : ∀ m' : List (String × ℚ),
      (m'.find? (fun kv => decide (kv.1 = k))).isSome = true →
      lookupAssoc (m'.map (fun kv => if kv.1 = k then (k, v) else kv)) k = some v := by
    intro m' hm
    induction m' with
    | nil => simp at hm
    | cons a t ih =>
      by_cases hk : a.1 = k
      · simp [lookupAssoc, List.find?_cons, hk]
      · have ht : (t.find? (fun kv => decide (kv.1 = k))).isSome = true := by
          simpa [List.find?_cons, hk] using hm
        simpa [lookupAssoc, List.find?_cons, hk] using ih ht
  have happ : ∀ m' : List (String × ℚ),
      (m'.find? (fun kv => decide (kv.1 = k))).isSome = false →
      lookupAssoc (m' ++ [(k, v)]) k = some v := by
    intro m' hm
    induction m' with
    | nil => simp [lookupAssoc]
    | cons a t ih =>
      by_cases hk : a.1 = k
      · simp [List.find?_cons, hk] at hm
      · have ht : (t.find? (fun kv => decide (kv.1 = k))).isSome = false := by
          simpa [List.find?_cons, hk] using hm
        simpa [lookupAssoc, List.find?_cons, hk] using ih ht
  unfold setAssoc
  by_cases hs : (m.find? (fun kv => decide (kv.1 = k))).isSome = true
  · rw [if_pos hs]
    exact hmap m hs
  · rw [if_neg hs]
    exact happ m (Bool.eq_false_iff.mpr hs)

/-- C2 counterexample.  Three facts refute the claim as stated.
(1) With a fresh per-camera dict (`.get(cam_id, 0)` defaults to 0), a call
at monotonic time 0 with a person present is skipped, not admitted.
(2) An admitted call that fails stamps the clock anyway (the source writes
`_last_call[cam_id]` before calling), so (3) a later call that the spec
admits — no *successful* call has ever happened (`specAdmits none`) — is
skipped by the code. -/
theorem admission_gate_counterexample :
    (geminiDetect [] "cam_0" "ts" 0 [orderPersonEv] (some [gateWeapon])).2.2 = false ∧
      (geminiDetect [] "cam_0" "ts" 100 [orderPersonEv] none).2.2 = true ∧
      (geminiDetect [] "cam_0" "ts" 100 [orderPersonEv] none).1 = [("cam_0", 100)] ∧
      (geminiDetect [] "cam_0" "ts" 100 [orderPersonEv] none).2.1 = [] ∧
      (geminiDetect [("cam_0", 100)] "cam_0" "ts" 110 [orderPersonEv] (some [gateWeapon])).2.2
        = false ∧
      specAdmits none 110 true = true := by
  refine ⟨?_, ?_, ?_, ?_, ?_, rfl⟩ <;>
    norm_num [geminiDetect, lookupAssoc, setAssoc, geminiWeaponCooldownSecs]

/-- C2 (amended): the admission gate of `GeminiWeaponDetector.detect`:
(a) with no person events it skips — no call, no state change;
(b) with a person present but less than the cooldown elapsed since the
last *admitted attempt* for this camera (initially time 0), it skips;
(c) otherwise it performs the call and records "now" as the camera's
last-call time *before* the call, regardless of the call's success and of
whether it found anything. -/
theorem admission_gate (lastCall : List (String × ℚ)) (camId nowIso : String) (now : ℚ)
    (personEvents : List Event) (callResult : Option (List Weapon)) :
    (personEvents = [] →
      geminiDetect lastCall camId nowIso now personEvents callResult = (lastCall, [], false)) ∧
      (personEvents ≠ [] →
        now - (lookupAssoc lastCall camId).getD 0 < geminiWeaponCooldownSecs →
        geminiDetect lastCall camId nowIso now personEvents callResult = (lastCall, [], false)) ∧
      (personEvents ≠ [] →
        geminiWeaponCooldownSecs ≤ now - (lookupAssoc lastCall camId).getD 0 →
        (geminiDetect lastCall camId nowIso now personEvents callResult).2.2 = true ∧
        lookupAssoc (geminiDetect lastCall camId nowIso now personEvents callResult).1 camId
          = some now) := by
  refine ⟨?_, ?_, ?_⟩
  · intro h
    simp [geminiDetect, h]
  · intro h1 h2
    simp [geminiDetect, h1, h2]
  · intro h1 h2
    cases callResult with
    | none => simp [geminiDetect, h1, not_lt.mpr h2, lookupAssoc_setAssoc]
    | some ws => simp [geminiDetect, h1, not_lt.mpr h2, lookupAssoc_setAssoc]

/-- C2 witness: a call at time 31 on a fresh camera with a person present
is admitted and stamps the clock. -/
theorem admission_gate_witness :
    ([orderPersonEv] ≠ ([] : List Event)) ∧
      geminiWeaponCooldownSecs ≤ 31 - (lookupAssoc [] "cam_0").getD 0 ∧
      (geminiDetect [] "cam_0" "ts" 31 [orderPersonEv] (some [gateWeapon])).2.2 = true ∧
      lookupAssoc (geminiDetect [] "cam_0" "ts" 31 [orderPersonEv] (some [gateWeapon])).1 "cam_0"
        = some 31 := by
  have h := (admission_gate [] "cam_0" "ts" 31 [orderPersonEv] (some [gateWeapon])).2.2
    (by simp) (by norm_num [lookupAssoc, geminiWeaponCooldownSecs])
  exact ⟨by simp, by norm_num [lookupAssoc, geminiWeaponCooldownSecs], h.1, h.2⟩

/-- The best-IoU scan never updates when every remaining candidate is at
or below the running best. -/
theorem bestMatch_no_update (b : BoxXY) :
    ∀ (l : List BoxXY) (j0 : ℕ) (best : ℚ) (bj : Option ℕ),
      (∀ m, m < l.length → computeIouXyxy b (l.getD m ⟨0, 0, 0, 0⟩) ≤ best) →
      bestMatch b [] l j0 best bj = bj := by
  intro l
  induction l with
  | nil => intro j0 best bj _; rfl
  | cons bb rest ih =>
    intro j0 best bj hall
    have h0 : computeIouXyxy b bb ≤ best := by simpa using hall 0 (by simp)
    simp only [bestMatch, List.mem_nil_iff, if_false, not_lt.mpr h0, ite_false]
    exact ih (j0 + 1) best bj (fun m hm => by simpa using hall (m + 1) (by simpa using hm))

/-- The best-IoU scan with the 0.3 floor returns the unique candidate
strictly above the floor (all others at or below it). -/
theorem bestMatch_unique (b : BoxXY) :
    ∀ (l : List BoxXY) (j0 k : ℕ),
      k < l.length →
      3 / 10 < computeIouXyxy b (l.getD k ⟨0, 0, 0, 0⟩) →
      (∀ m, m < l.length → m ≠ k → computeIouXyxy b (l.getD m ⟨0, 0, 0, 0⟩) ≤ 3 / 10) →
      bestMatch b [] l j0 (3 / 10) none = some (j0 + k) := by
  intro l
  induction l with
  | nil => intro j0 k hk; simp at hk
  | cons bb rest ih =>
    intro j0 k hk hbig hothers
    cases k with
    | zero =>
      have h0 : 3 / 10 < computeIouXyxy b bb := by simpa using hbig
      simp only [bestMatch, List.mem_nil_iff, if_false]
      rw [if_pos h0]
      rw [bestMatch_no_update b rest (j0 + 1) (computeIouXyxy b bb) (some j0)
        (fun m hm => le_of_lt (lt_of_le_of_lt
          (by simpa using hothers (m + 1) (by simpa using hm) (by omega)) h0))]
      simp
    | succ k' =>
      have h0 : computeIouXyxy b bb ≤ 3 / 10 := by
        simpa using hothers 0 (by simp) (by omega)
      simp only [bestMatch, List.mem_nil_iff, if_false]
      rw [if_neg (not_lt.mpr h0)]
      have := ih (j0 + 1) k' (by simpa using hk) (by simpa using hbig)
        (fun m hm hne => by simpa using hothers (m + 1) (by simpa using hm) (by omega))
      rw [this]
      congr 1
      omega

/-- C3 counterexample: the claim "a current detection whose IoU against
exactly one unmatched previous-frame detection is at least 0.3 inherits
that detection's slot id" fails at IoU exactly 0.3: the source accepts
only `iou > best_iou` with `best_iou = 0.3`, so the detection receives a
fresh id (1) instead of inheriting slot 0. -/
theorem tracker_match_threshold_counterexample :
    computeIouXyxy ⟨0, 0, 3 / 10, 1⟩ ⟨0, 0, 1, 1⟩ = 3 / 10 ∧
      (assignSlots 1 [⟨0, 0, 1, 1⟩] [0] [mkBoxPose ⟨0, 0, 3 / 10, 1⟩]).1 = [1] ∧
      (1 : ℕ) ≠ 0 := by
  refine ⟨by norm_num [computeIouXyxy], ?_, by norm_num⟩
  norm_num [assignSlots, matchPoses, bestMatch, fillFresh, mkBoxPose, computeIouXyxy]

/-- C3 (amended): with previous-frame state present, a current detection
whose IoU is strictly above 0.3 against exactly one previous detection
(all others at or below 0.3) inherits that detection's slot id; a
detection at or below 0.3 against every previous detection (e.g. best IoU
0.29) receives the camera's fresh next id, which under the tracker's
invariant (every issued slot is below the next-slot counter) is
previously unused. -/
theorem tracker_match_threshold (next : ℕ) (prevBbs : List BoxXY) (prevSlots : List ℕ)
    (p : Pose) :
    (∀ k, k < prevBbs.length → prevSlots ≠ [] →
      3 / 10 < computeIouXyxy p.bbox (prevBbs.getD k ⟨0, 0, 0, 0⟩) →
      (∀ m, m < prevBbs.length → m ≠ k →
        computeIouXyxy p.bbox (prevBbs.getD m ⟨0, 0, 0, 0⟩) ≤ 3 / 10) →
      (assignSlots next prevBbs prevSlots [p]).1 = [prevSlots.getD k 0]) ∧
      (prevBbs ≠ [] → prevSlots ≠ [] →
        (∀ m, m < prevBbs.length →
          computeIouXyxy p.bbox (prevBbs.getD m ⟨0, 0, 0, 0⟩) ≤ 3 / 10) →
        (assignSlots next prevBbs prevSlots [p]).1 = [next] ∧
          ((∀ s ∈ prevSlots, s < next) → ¬ next ∈ prevSlots)) := by
  constructor
  · intro k hk hslots hbig hothers
    have hbbs : prevBbs ≠ [] := by
      intro h
      rw [h] at hk
      simp at hk
    unfold assignSlots
    rw [if_neg (by simp [hbbs, hslots])]
    unfold matchPoses
    rw [show bestMatch p.bbox [] prevBbs 0 (3 / 10) none = some (0 + k) from
      bestMatch_unique p.bbox prevBbs 0 k hk hbig hothers]
    simp [fillFresh]
  · intro hbbs hslots hall
    constructor
    · unfold assignSlots
      rw [if_neg (by simp [hbbs, hslots])]
      unfold matchPoses
      rw [show bestMatch p.bbox [] prevBbs 0 (3 / 10) none = none from
        bestMatch_no_update p.bbox prevBbs 0 (3 / 10) none hall]
      simp [fillFresh]
    · intro hinv hmem
      exact absurd (hinv next hmem) (lt_irrefl next)

/-- C3 witness: a detection matching exactly one previous box strictly
above 0.3 inherits its slot (5); a detection with zero overlap against
the only previous box receives the fresh id. -/
theorem tracker_match_threshold_witness :
    (assignSlots 9 [⟨0, 0, 1, 1⟩, ⟨2, 2, 3, 3⟩] [5, 7] [mkBoxPose ⟨0, 0, 1, 1⟩]).1 = [5] ∧
      (assignSlots 9 [⟨0, 0, 1, 1⟩] [5] [mkBoxPose ⟨5, 5, 6, 6⟩]).1 = [9] ∧
      ¬ (9 : ℕ) ∈ [5] := by
  refine ⟨?_, ?_, by norm_num⟩
  · exact (tracker_match_threshold 9 [⟨0, 0, 1, 1⟩, ⟨2, 2, 3, 3⟩] [5, 7]
      (mkBoxPose ⟨0, 0, 1, 1⟩)).1 0 (by norm_num) (by simp)
      (by norm_num [mkBoxPose, computeIouXyxy])
      (by
        intro m hm hne
        have hm1 : m = 1 := by simp at hm; omega
        subst hm1
        norm_num [mkBoxPose, computeIouXyxy])
  · exact ((tracker_match_threshold 9 [⟨0, 0, 1, 1⟩] [5] (mkBoxPose ⟨5, 5, 6, 6⟩)).2
      (by simp) (by simp)
      (by
        intro m hm
        have hm0 : m = 0 := by simp at hm; omega
        subst hm0
        norm_num [mkBoxPose, computeIouXyxy])).1

/-- C4 counterexample: the claim fails when B appears on cycle 2 (the very
cycle A disappears): the tracker matches by IoU against the previous
frame, so a different entity B overlapping A's last box above 0.3 inherits
A's slot id 0 instead of getting a new id. -/
theorem slot_id_reuse_counterexample :
    ((detectFight initFightState "cam_0" "ts" [mkBoxPose ⟨0, 0, 1 / 2, 1 / 2⟩] 1).1).prevSlots
        = [0] ∧
      ((detectFight (detectFight initFightState "cam_0" "ts"
          [mkBoxPose ⟨0, 0, 1 / 2, 1 / 2⟩] 1).1 "cam_0" "ts"
          [mkBoxPose ⟨1 / 10, 0, 1 / 2, 1 / 2⟩] 2).1).prevSlots = [0] ∧
      3 / 10 < computeIouXyxy ⟨1 / 10, 0, 1 / 2, 1 / 2⟩ ⟨0, 0, 1 / 2, 1 / 2⟩ := by
  have h1 : (detectFight initFightState "cam_0" "ts" [mkBoxPose ⟨0, 0, 1 / 2, 1 / 2⟩] 1).1
      = ⟨[[]], [⟨0, 0, 1 / 2, 1 / 2⟩], 0, 1, [0], []⟩ := by
    norm_num [detectFight, assignSlots, mkBoxPose, initFightState, List.range_succ, Pose.keypoints]
  refine ⟨by rw [h1], ?_, by norm_num [computeIouXyxy]⟩
  rw [h1]
  norm_num [detectFight, assignSlots, matchPoses, bestMatch, fillFresh, mkBoxPose, computeIouXyxy]

/-- C4 (amended): with one full cycle of absence between A and B, slot ids
are not reused: A present on cycle 1 (slot 0), nothing on cycle 2, B
appearing on cycle 3 overlapping A's last box above 0.3 still receives
the fresh id 1, distinct from A's id — the tracker only matches against
the immediately previous frame, which is empty. -/
theorem slot_id_not_reused_after_drop (camId iso1 iso2 iso3 : String) (pA pB : Pose)
    (t1 t2 t3 : ℚ) (hiou : 3 / 10 < computeIouXyxy pB.bbox pA.bbox) :
    ((detectFight initFightState camId iso1 [pA] t1).1).prevSlots = [0] ∧
      ((detectFight (detectFight (detectFight initFightState camId iso1 [pA] t1).1
          camId iso2 [] t2).1 camId iso3 [pB] t3).1).prevSlots = [1] ∧
      ¬ (1 : ℕ) ∈ ((detectFight initFightState camId iso1 [pA] t1).1).prevSlots := by
  have h1 : (detectFight initFightState camId iso1 [pA] t1).1
      = ⟨[pA.keypoints], [pA.bbox], 0, 1, [0], []⟩ := by
    simp [detectFight, initFightState, assignSlots, List.range_succ]
  have h2 : (detectFight (⟨[pA.keypoints], [pA.bbox], 0, 1, [0], []⟩ : FightState)
      camId iso2 [] t2).1 = ⟨[], [], 0, 1, [], []⟩ := by
    simp [detectFight, assignSlots, matchPoses, fillFresh]
  have h3 : (detectFight (⟨[], [], 0, 1, [], []⟩ : FightState) camId iso3 [pB] t3).1.prevSlots
      = [1] := by
    simp [detectFight, assignSlots, List.range_succ]
  refine ⟨by rw [h1], ?_, by rw [h1]; simp⟩
  rw [h1, h2, h3]

/-- C4 witness: the amended three-cycle scenario at concrete boxes with
IoU 4/5 between B and A's last box. -/
theorem slot_id_not_reused_after_drop_witness :
    ((detectFight initFightState "cam_0" "t1" [mkBoxPose ⟨0, 0, 1 / 2, 1 / 2⟩] 1).1).prevSlots
        = [0] ∧
      ((detectFight (detectFight (detectFight initFightState "cam_0" "t1"
          [mkBoxPose ⟨0, 0, 1 / 2, 1 / 2⟩] 1).1 "cam_0" "t2" [] 2).1 "cam_0" "t3"
          [mkBoxPose ⟨1 / 10, 0, 1 / 2, 1 / 2⟩] 3).1).prevSlots = [1] ∧
      ¬ (1 : ℕ) ∈ ((detectFight initFightState "cam_0" "t1"
          [mkBoxPose ⟨0, 0, 1 / 2, 1 / 2⟩] 1).1).prevSlots :=
  slot_id_not_reused_after_drop "cam_0" "t1" "t2" "t3" (mkBoxPose ⟨0, 0, 1 / 2, 1 / 2⟩)
    (mkBoxPose ⟨1 / 10, 0, 1 / 2, 1 / 2⟩) 1 2 3 (by norm_num [mkBoxPose, computeIouXyxy])

/-- Writing a buffer under a key makes that key's entry the new buffer. -/
theorem lookupBuf_setBuf_self (h : List ((ℕ × ℕ) × List Bool)) (k : ℕ × ℕ) (b : List Bool) :
    lookupBuf (setBuf h k b) k = some b := by
  have hmap : ∀ h' : List ((ℕ × ℕ) × List Bool),
      (h'.find? (fun kv => decide (kv.1 = k))).isSome = true →
      lookupBuf (h'.map (fun kv => if kv.1 = k then (k, b) else kv)) k = some b := by
    intro h' hm
    induction h' with
    | nil => simp at hm
    | cons a t ih =>
      by_cases hk : a.1 = k
      · simp [lookupBuf, List.find?_cons, hk]
      · have ht : (t.find? (fun kv => decide (kv.1 = k))).isSome = true := by
          simpa [List.find?_cons, hk] using hm
        simpa [lookupBuf, List.find?_cons, hk] using ih ht
  have happ : ∀ h' : List ((ℕ × ℕ) × List Bool),
      (h'.find? (fun kv => decide (kv.1 = k))).isSome = false →
      lookupBuf (h' ++ [(k, b)]) k = some b := by
    intro h' hm
    induction h' with
    | nil => simp [lookupBuf]
    | cons a t ih =>
      by_cases hk : a.1 = k
      · simp [List.find?_cons, hk] at hm
      · have ht : (t.find? (fun kv => decide (kv.1 = k))).isSome = false := by
          simpa [List.find?_cons, hk] using hm
        simpa [lookupBuf, List.find?_cons, hk] using ih ht
  unfold setBuf
  by_cases hs : (h.find? (fun kv => decide (kv.1 = k))).isSome = true
  · rw [if_pos hs]
    exact hmap h hs
  · rw [if_neg hs]
    exact happ h (Bool.eq_false_iff.mpr hs)

/-- Writing a buffer under a key leaves every other key's entry alone. -/
theorem lookupBuf_setBuf_ne (h : List ((ℕ × ℕ) × List Bool)) (k k' : ℕ × ℕ) (b : List Bool)
    (hne : k' ≠ k) : lookupBuf (setBuf h k b) k' = lookupBuf h k' := by
  have hkk : ¬ (k = k') := fun hc => hne hc.symm
  have hmap : ∀ t : List ((ℕ × ℕ) × List Bool),
      List.find? (fun kv => decide (kv.1 = k')) (t.map (fun kv => if kv.1 = k then (k, b) else kv))
        = List.find? (fun kv => decide (kv.1 = k')) t := by
    intro t
    induction t with
    | nil => rfl
    | cons a t ih =>
      rw [List.map_cons]
      by_cases hk : a.1 = k
      · rw [if_pos hk, List.find?_cons_of_neg _ (by simp [hkk]),
          List.find?_cons_of_neg _ (by simp [hk, hkk])]
        exact ih
      · rw [if_neg hk]
        by_cases hk' : a.1 = k'
        · rw [List.find?_cons_of_pos _ (by simp [hk']), List.find?_cons_of_pos _ (by simp [hk'])]
        · rw [List.find?_cons_of_neg _ (by simp [hk']), List.find?_cons_of_neg _ (by simp [hk'])]
          exact ih
  have happ : ∀ t : List ((ℕ × ℕ) × List Bool),
      List.find? (fun kv => decide (kv.1 = k')) (t ++ [(k, b)])
        = List.find? (fun kv => decide (kv.1 = k')) t := by
    intro t
    rw [List.find?_append]
    have hlast : List.find? (fun kv => decide (kv.1 = k')) [((k, b) : (ℕ × ℕ) × List Bool)]
        = none := by
      rw [List.find?_cons_of_neg _ (by simp [hkk])]
      rfl
    rw [hlast]
    cases List.find? (fun kv => decide (kv.1 = k')) t <;> rfl
  unfold lookupBuf setBuf
  split
  · rw [hmap]
  · rw [happ]

/-- Looking up a key in the history filtered to an active set succeeds iff
the key has an entry and is active. -/
theorem lookupBuf_filter (h : List ((ℕ × ℕ) × List Bool)) (act : List (ℕ × ℕ)) (k : ℕ × ℕ) :
    (lookupBuf (h.filter (fun kv => kv.1 ∈ act)) k).isSome = true ↔
      (lookupBuf h k).isSome = true ∧ k ∈ act := by
  induction h with
  | nil => simp [lookupBuf]
  | cons a t ih =>
    by_cases hmem : a.1 ∈ act
    · by_cases hak : a.1 = k
      · simp [lookupBuf, List.filter_cons, hmem, List.find?_cons, hak, hak ▸ hmem]
      · simpa [lookupBuf, List.filter_cons, hmem, List.find?_cons, hak] using ih
    · by_cases hak : a.1 = k
      · have hkact : ¬ k ∈ act := hak ▸ hmem
        rw [List.filter_cons, if_neg (by simpa using hmem)]
        constructor
        · intro hx
          exact absurd (ih.mp hx).2 hkact
        · intro hx
          exact absurd hx.2 hkact
      · simpa [lookupBuf, List.filter_cons, hmem, List.find?_cons, hak] using ih

/-- `keysOf` over a cons of the pair list. -/
theorem keysOf_cons (poses : List Pose) (slots : List ℕ) (ij : ℕ × ℕ)
    (rest : List (ℕ × ℕ)) :
    keysOf poses slots (ij :: rest)
      = if checkProximity (poses.getD ij.1 default) (poses.getD ij.2 default) then
          (min (slots.getD ij.1 0) (slots.getD ij.2 0),
            max (slots.getD ij.1 0) (slots.getD ij.2 0)) :: keysOf poses slots rest
        else keysOf poses slots rest := by
  simp only [keysOf, List.filterMap_cons]
  split_ifs with h <;> simp [h]

/-- On a cycle where the pair loop fires no fight event, the returned
active set is exactly the starting set plus the proximity-gated keys of
the pair list, and the returned history's domain is the starting domain
extended by exactly those keys. -/
theorem pairLoopGo_nofire (camId nowIso : String) (poses : List Pose) (slots : List ℕ)
    (velSq : List ℚ) (now : ℚ) :
    ∀ (ps : List (ℕ × ℕ)) (hist : List ((ℕ × ℕ) × List Bool)) (act : List (ℕ × ℕ)) (lf : ℚ),
      (pairLoopGo camId nowIso poses slots velSq now ps hist act lf).2.2.2 = [] →
      (∀ k, k ∈ (pairLoopGo camId nowIso poses slots velSq now ps hist act lf).2.1 ↔
        (k ∈ act ∨ k ∈ keysOf poses slots ps)) ∧
      (∀ k, (k ∈ keysOf poses slots ps ∨ (lookupBuf hist k).isSome = true) →
        (lookupBuf (pairLoopGo camId nowIso poses slots velSq now ps hist act lf).1 k).isSome
          = true) ∧
      (∀ k,
        (lookupBuf (pairLoopGo camId nowIso poses slots velSq now ps hist act lf).1 k).isSome
            = true →
        ((lookupBuf hist k).isSome = true ∨ k ∈ keysOf poses slots ps)) := by
  intro ps
  induction ps with
  | nil =>
    intro hist act lf _
    refine ⟨fun k => by simp [pairLoopGo, keysOf], fun k hk => ?_, fun k hk => ?_⟩
    · rcases hk with hk | hk
      · simp [keysOf] at hk
      · simpa [pairLoopGo] using hk
    · exact Or.inl (by simpa [pairLoopGo] using hk)
  | cons ij rest ih =>
    intro hist act lf hevs
    by_cases hprox : checkProximity (poses.getD ij.1 default) (poses.getD ij.2 default) = true
    case neg =>
      have hstep : pairLoopGo camId nowIso poses slots velSq now (ij :: rest) hist act lf
          = pairLoopGo camId nowIso poses slots velSq now rest hist act lf := by
        simp only [pairLoopGo]
        rw [if_pos hprox]
      rw [hstep] at hevs ⊢
      have hkeys : keysOf poses slots (ij :: rest) = keysOf poses slots rest := by
        rw [keysOf_cons, if_neg hprox]
      rw [hkeys]
      exact ih hist act lf hevs
    case pos =>
      set key := (min (slots.getD ij.1 0) (slots.getD ij.2 0),
        max (slots.getD ij.1 0) (slots.getD ij.2 0)) with hkeydef
      set buf := pushBuf ((lookupBuf hist key).getD [])
        (decide (fightMinCriteria ≤ critCount velSq ij.1 ij.2 (poses.getD ij.1 default)
          (poses.getD ij.2 default))) with hbufdef
      set hist2 := setBuf hist key buf with hhist2def
      have hkeys : keysOf poses slots (ij :: rest) = key :: keysOf poses slots rest := by
        rw [keysOf_cons, if_pos hprox]
      have hstep : pairLoopGo camId nowIso poses slots velSq now (ij :: rest) hist act lf
          = if buf.length = fightSustainFrames ∧ buf.all (fun x => x) then
              (if fightEventCooldownSecs ≤ now - lf then
                (hist2, key :: act, now,
                  [mkFightEvent camId nowIso (poses.getD ij.1 default) (poses.getD ij.2 default)
                    (critCount velSq ij.1 ij.2 (poses.getD ij.1 default)
                      (poses.getD ij.2 default))])
              else pairLoopGo camId nowIso poses slots velSq now rest hist2 (key :: act) lf)
            else pairLoopGo camId nowIso poses slots velSq now rest hist2 (key :: act) lf := by
        simp only [pairLoopGo]
        rw [if_neg (not_not_intro hprox)]
      have hnof : pairLoopGo camId nowIso poses slots velSq now (ij :: rest) hist act lf
          = pairLoopGo camId nowIso poses slots velSq now rest hist2 (key :: act) lf := by
        rw [hstep]
        split_ifs with hfull hcd
        · exfalso
          rw [hstep, if_pos hfull, if_pos hcd] at hevs
          simp at hevs
        · rfl
        · rfl
      rw [hnof] at hevs ⊢
      obtain ⟨iha, ihb, ihc⟩ := ih hist2 (key :: act) lf hevs
      refine ⟨fun k => ?_, fun k hk => ?_, fun k hk => ?_⟩
      · rw [iha k, hkeys]
        simp only [List.mem_cons]
        tauto
      · apply ihb k
        rw [hkeys] at hk
        rcases hk with hk | hk
        · rcases List.mem_cons.mp hk with hkk | hkk
          · right
            subst hkk
            rw [hhist2def, lookupBuf_setBuf_self]
            rfl
          · exact Or.inl hkk
        · right
          by_cases hkk : k = key
          · subst hkk
            rw [hhist2def, lookupBuf_setBuf_self]
            rfl
          · rw [hhist2def, lookupBuf_setBuf_ne hist key k buf hkk]
            exact hk
      · rcases ihc k hk with hs2 | hkr
        · by_cases hkk : k = key
          · right
            rw [hkeys, hkk]
            exact List.mem_cons_self _ _
          · left
            rwa [hhist2def, lookupBuf_setBuf_ne hist key k buf hkk] at hs2
        · right
          rw [hkeys]
          exact List.mem_cons_of_mem _ hkr

/-- C5 (amended): on every cycle in which no fight event fires, a pair key
has a sustain buffer after the cycle exactly when the pair was active
(both entities co-present and proximity-gated) this cycle; on a firing
cycle the loop breaks at the firing pair, so pairs later in the iteration
order are treated as inactive and their buffers are discarded. -/
theorem sustain_buffer_lifecycle (st : FightState) (camId nowIso : String) (poses : List Pose)
    (now : ℚ) (k : ℕ × ℕ)
    (hnofire : (detectFight st camId nowIso poses now).2.2 = []) :
    (lookupBuf ((detectFight st camId nowIso poses now).1.history) k).isSome = true ↔
      k ∈ activeKeys poses (assignSlots st.nextSlot st.prevBboxes st.prevSlots poses).1 := by
  by_cases hlen : 2 ≤ poses.length
  · dsimp only [detectFight] at hnofire ⊢
    rw [if_pos hlen] at hnofire ⊢
    obtain ⟨iha, ihb, _⟩ := pairLoopGo_nofire camId nowIso poses
      (assignSlots st.nextSlot st.prevBboxes st.prevSlots poses).1
      (computeVelocitiesSq st.prevKeypoints st.prevBboxes poses) now
      (pairsOf poses.length) st.history [] st.lastFightTime hnofire
    rw [lookupBuf_filter]
    simp only [activeKeys]
    constructor
    · rintro ⟨_, hact⟩
      rcases (iha k).mp hact with h | h
      · simp at h
      · exact h
    · intro hk
      exact ⟨ihb k (Or.inl hk), (iha k).mpr (Or.inr hk)⟩
  · dsimp only [detectFight] at hnofire ⊢
    rw [if_neg hlen] at hnofire ⊢
    have hps : pairsOf poses.length = [] := by
      have h2 : poses.length = 0 ∨ poses.length = 1 := by omega
      rcases h2 with h | h <;> rw [h] <;> rfl
    simp [lookupBuf, activeKeys, keysOf, hps]

/-- C5 witness: a quiet first cycle (buffer not yet full, so no fight
event): the pair (0,1) is active and its buffer exists. -/
theorem sustain_buffer_lifecycle_witness :
    (detectFight initFightState "cam_0" "ts" [witPoseA, witPoseB] 1).2.2 = [] ∧
      ((lookupBuf ((detectFight initFightState "cam_0" "ts" [witPoseA, witPoseB] 1).1.history)
          (0, 1)).isSome = true ↔
        (0, 1) ∈ activeKeys [witPoseA, witPoseB]
          (assignSlots initFightState.nextSlot initFightState.prevBboxes
            initFightState.prevSlots [witPoseA, witPoseB]).1) := by
  have hnof : (detectFight initFightState "cam_0" "ts" [witPoseA, witPoseB] 1).2.2 = [] := by
    norm_num [detectFight, assignSlots, pairLoopGo, pairsOf, computeVelocitiesSq,
      initFightState, List.range_succ, checkProximity, sqrtSumLtConst, distRatioLt,
      Pose.centerX, Pose.centerY, Pose.diagSq, fightProximityRatio, critCount,
      checkArmIntrusion, checkAggressivePosture, wristIndices, wristShoulderPairs,
      fightKeypointConfidenceMin, fightArmIntrusionMargin, fightVelocityThreshold,
      fightMinCriteria, fightSustainFrames, fightEventCooldownSecs, witPoseA, witPoseB,
      lookupBuf, setBuf, pushBuf, matchPoses, fillFresh, bestMatch]
  exact ⟨hnof, sustain_buffer_lifecycle initFightState "cam_0" "ts" [witPoseA, witPoseB] 1
    (0, 1) hnof⟩

/-- C5 counterexample: the claim "every pair whose two entities are
co-present and pass the proximity gate this cycle keeps its buffer" fails
on a firing cycle.  In `breakState` pairs (0,1) and (0,2) both hold two
cycles of evidence; pair (0,1) fires and the loop breaks, so the active
pair (0,2) is never marked active and its buffer is deleted. -/
theorem sustain_buffer_lifecycle_counterexample :
    (assignSlots breakState.nextSlot breakState.prevBboxes breakState.prevSlots
        [witPoseA, witPoseB, witPoseC]).1 = [0, 1, 2] ∧
      (0, 2) ∈ activeKeys [witPoseA, witPoseB, witPoseC] [0, 1, 2] ∧
      lookupBuf breakState.history (0, 2) = some [true, true] ∧
      (detectFight breakState "cam_0" "ts" [witPoseA, witPoseB, witPoseC] 10).2.2.length = 1 ∧
      lookupBuf ((detectFight breakState "cam_0" "ts"
          [witPoseA, witPoseB, witPoseC] 10).1.history) (0, 2) = none := by
  refine ⟨by decide, by decide, by decide, by decide, by decide⟩

/-- One `FightDetector.detect` cycle on exactly two poses whose pair key
is (0,1) and whose proximity gate holds: the pair's buffer is pushed, a
fight event fires iff the buffer is full and unanimous and the camera
cooldown has elapsed, and the history keeps exactly the (0,1) entry. -/
theorem detectFight_two_prox (st : FightState) (camId nowIso : String) (a b : Pose) (t : ℚ)
    (hs : (assignSlots st.nextSlot st.prevBboxes st.prevSlots [a, b]).1 = [0, 1])
    (hprox : checkProximity a b = true) :
    detectFight st camId nowIso [a, b] t =
      (⟨[a.keypoints, b.keypoints], [a.bbox, b.bbox],
        (if (pairBuf st a b).length = fightSustainFrames ∧ (pairBuf st a b).all (fun x => x) then
          (if fightEventCooldownSecs ≤ t - st.lastFightTime then t else st.lastFightTime)
        else st.lastFightTime),
        (assignSlots st.nextSlot st.prevBboxes st.prevSlots [a, b]).2, [0, 1],
        (setBuf st.history (0, 1) (pairBuf st a b)).filter
          (fun kv => kv.1 ∈ [((0, 1) : ℕ × ℕ)])⟩,
       [mkPersonEvent camId nowIso a, mkPersonEvent camId nowIso b],
       (if (pairBuf st a b).length = fightSustainFrames ∧ (pairBuf st a b).all (fun x => x) then
         (if fightEventCooldownSecs ≤ t - st.lastFightTime then
           [mkFightEvent camId nowIso a b (critCount
             (computeVelocitiesSq st.prevKeypoints st.prevBboxes [a, b]) 0 1 a b)]
         else [])
       else [])) := by
  dsimp only [detectFight]
  rw [if_pos (show 2 ≤ [a, b].length by simp)]
  rw [show pairsOf [a, b].length = [(0, 1)] from rfl]
  simp only [pairLoopGo, List.getD_cons_zero, List.getD_cons_succ]
  rw [if_neg (not_not_intro hprox), hs]
  simp only [List.getD_cons_zero, List.getD_cons_succ, List.map_cons, List.map_nil]
  rw [show min 0 1 = 0 from rfl, show max 0 1 = 1 from rfl]
  simp only [pairBuf]
  split_ifs <;> rfl

/-- One `FightDetector.detect` cycle on exactly two poses whose proximity
gate fails: nothing is pushed, no event fires, and the whole history is
discarded (no pair was active). -/
theorem detectFight_two_noprox (st : FightState) (camId nowIso : String) (a b : Pose) (t : ℚ)
    (hs : (assignSlots st.nextSlot st.prevBboxes st.prevSlots [a, b]).1 = [0, 1])
    (hprox : checkProximity a b = false) :
    detectFight st camId nowIso [a, b] t =
      (⟨[a.keypoints, b.keypoints], [a.bbox, b.bbox], st.lastFightTime,
        (assignSlots st.nextSlot st.prevBboxes st.prevSlots [a, b]).2, [0, 1], []⟩,
       [mkPersonEvent camId nowIso a, mkPersonEvent camId nowIso b], []) := by
  dsimp only [detectFight]
  rw [if_pos (show 2 ≤ [a, b].length by simp)]
  rw [show pairsOf [a, b].length = [(0, 1)] from rfl]
  simp only [pairLoopGo, List.getD_cons_zero, List.getD_cons_succ]
  rw [if_pos (by simp [hprox]), hs]
  simp only [List.map_cons, List.map_nil, List.mem_nil_iff]
  simp

/-- C1: temporal sustain for fight detection, for a camera seeing one
tracked pair across four cycles (fresh camera state; the slot hypotheses
say the tracker keeps the pair's slots [0, 1] each cycle).  If the pair
passes the heuristic on cycles 1 and 2: (i) failing on cycle 3 means no
fight event fires on any of the three cycles; (ii) passing on cycle 3
with the camera cooldown permitting (the cooldown clock starts at 0)
fires exactly one fight event, on cycle 3, stamping the cooldown clock;
and then a still-passing cycle 4 fires nothing while within the cooldown
of the cycle-3 event, but fires again once the cooldown has elapsed (the
buffer is not reset by firing; only the cooldown gates re-emission). -/
theorem fight_sustain_window (camId i1 i2 i3 i4 : String)
    (a1 b1 a2 b2 a3 b3 a4 b4 : Pose) (t1 t2 t3 t4 : ℚ) :
    let s1 := detectFight initFightState camId i1 [a1, b1] t1
    let s2 := detectFight s1.1 camId i2 [a2, b2] t2
    let s3 := detectFight s2.1 camId i3 [a3, b3] t3
    let s4 := detectFight s3.1 camId i4 [a4, b4] t4
    (assignSlots s1.1.nextSlot s1.1.prevBboxes s1.1.prevSlots [a2, b2]).1 = [0, 1] →
    (assignSlots s2.1.nextSlot s2.1.prevBboxes s2.1.prevSlots [a3, b3]).1 = [0, 1] →
    (assignSlots s3.1.nextSlot s3.1.prevBboxes s3.1.prevSlots [a4, b4]).1 = [0, 1] →
    pairPasses initFightState [a1, b1] 0 1 = true →
    pairPasses s1.1 [a2, b2] 0 1 = true →
    ((pairPasses s2.1 [a3, b3] 0 1 = false → s1.2.2 = [] ∧ s2.2.2 = [] ∧ s3.2.2 = []) ∧
      (pairPasses s2.1 [a3, b3] 0 1 = true → fightEventCooldownSecs ≤ t3 →
        s1.2.2 = [] ∧ s2.2.2 = [] ∧ s3.2.2.length = 1 ∧ s3.1.lastFightTime = t3 ∧
        (pairPasses s3.1 [a4, b4] 0 1 = true → t4 - t3 < fightEventCooldownSecs →
          s4.2.2 = []) ∧
        (pairPasses s3.1 [a4, b4] 0 1 = true → fightEventCooldownSecs ≤ t4 - t3 →
          s4.2.2.length = 1))) := by
  intro s1 s2 s3 s4 hs2 hs3 hs4 hp1 hp2
  simp only [pairPasses, List.getD_cons_zero, List.getD_cons_succ, Bool.and_eq_true] at hp1
  obtain ⟨hprox1, hcrit1⟩ := hp1
  have hs1 : (assignSlots initFightState.nextSlot initFightState.prevBboxes
      initFightState.prevSlots [a1, b1]).1 = [0, 1] := rfl
  have hbuf1 : pairBuf initFightState a1 b1 = [true] := by
    simp only [pairBuf]
    rw [hcrit1]
    rfl
  have e1 : s1 = (⟨[a1.keypoints, b1.keypoints], [a1.bbox, b1.bbox], 0, 2, [0, 1],
      [((0, 1), [true])]⟩,
      [mkPersonEvent camId i1 a1, mkPersonEvent camId i1 b1], []) := by
    show detectFight initFightState camId i1 [a1, b1] t1 = _
    rw [detectFight_two_prox initFightState camId i1 a1 b1 t1 hs1 hprox1, hbuf1]
    rfl
  rw [e1] at hs2 hp2
  dsimp only at hs2 hp2
  simp only [pairPasses, List.getD_cons_zero, List.getD_cons_succ, Bool.and_eq_true] at hp2
  obtain ⟨hprox2, hcrit2⟩ := hp2
  have hbuf2 : pairBuf (⟨[a1.keypoints, b1.keypoints], [a1.bbox, b1.bbox], 0, 2, [0, 1],
      [((0, 1), [true])]⟩ : FightState) a2 b2 = [true, true] := by
    simp only [pairBuf]
    dsimp only
    rw [hcrit2]
    rfl
  have e2 : s2 = (⟨[a2.keypoints, b2.keypoints], [a2.bbox, b2.bbox], 0,
      (assignSlots 2 [a1.bbox, b1.bbox] [0, 1] [a2, b2]).2, [0, 1],
      [((0, 1), [true, true])]⟩,
      [mkPersonEvent camId i2 a2, mkPersonEvent camId i2 b2], []) := by
    show detectFight s1.1 camId i2 [a2, b2] t2 = _
    rw [e1]
    rw [detectFight_two_prox _ camId i2 a2 b2 t2 hs2 hprox2, hbuf2]
    rfl
  rw [e2] at hs3
  dsimp only at hs3
  constructor
  · intro hp3
    refine ⟨by rw [e1], by rw [e2], ?_⟩
    rw [e2] at hp3
    dsimp only at hp3
    simp only [pairPasses, List.getD_cons_zero, List.getD_cons_succ] at hp3
    by_cases hpx : checkProximity a3 b3 = true
    · rw [hpx, Bool.true_and] at hp3
      have hbuf3 : pairBuf (⟨[a2.keypoints, b2.keypoints], [a2.bbox, b2.bbox], 0,
          (assignSlots 2 [a1.bbox, b1.bbox] [0, 1] [a2, b2]).2, [0, 1],
          [((0, 1), [true, true])]⟩ : FightState) a3 b3 = [true, true, false] := by
        simp only [pairBuf]
        dsimp only
        rw [hp3]
        rfl
      show (detectFight s2.1 camId i3 [a3, b3] t3).2.2 = []
      rw [e2]
      rw [detectFight_two_prox _ camId i3 a3 b3 t3 hs3 hpx, hbuf3]
      rfl
    · show (detectFight s2.1 camId i3 [a3, b3] t3).2.2 = []
      rw [e2]
      rw [detectFight_two_noprox _ camId i3 a3 b3 t3 hs3 (Bool.eq_false_iff.mpr hpx)]
  · intro hp3 hcd3
    rw [e2] at hp3
    dsimp only at hp3
    simp only [pairPasses, List.getD_cons_zero, List.getD_cons_succ, Bool.and_eq_true] at hp3
    obtain ⟨hprox3, hcrit3⟩ := hp3
    have hbuf3 : pairBuf (⟨[a2.keypoints, b2.keypoints], [a2.bbox, b2.bbox], 0,
        (assignSlots 2 [a1.bbox, b1.bbox] [0, 1] [a2, b2]).2, [0, 1],
        [((0, 1), [true, true])]⟩ : FightState) a3 b3 = [true, true, true] := by
      simp only [pairBuf]
      dsimp only
      rw [hcrit3]
      rfl
    have e3 : s3 = (⟨[a3.keypoints, b3.keypoints], [a3.bbox, b3.bbox], t3,
        (assignSlots (assignSlots 2 [a1.bbox, b1.bbox] [0, 1] [a2, b2]).2
          [a2.bbox, b2.bbox] [0, 1] [a3, b3]).2, [0, 1],
        [((0, 1), [true, true, true])]⟩,
        [mkPersonEvent camId i3 a3, mkPersonEvent camId i3 b3],
        [mkFightEvent camId i3 a3 b3 (critCount (computeVelocitiesSq
          [a2.keypoints, b2.keypoints] [a2.bbox, b2.bbox] [a3, b3]) 0 1 a3 b3)]) := by
      show detectFight s2.1 camId i3 [a3, b3] t3 = _
      rw [e2]
      rw [detectFight_two_prox _ camId i3 a3 b3 t3 hs3 hprox3, hbuf3]
      dsimp only
      rw [if_pos (show [true, true, true].length = fightSustainFrames ∧
          [true, true, true].all (fun x => x) by decide)]
      rw [if_pos (show fightEventCooldownSecs ≤ t3 - 0 by rw [sub_zero]; exact hcd3)]
      rw [show List.filter (fun kv => decide (kv.1 ∈ [((0, 1) : ℕ × ℕ)]))
          (setBuf [((0, 1), [true, true])] (0, 1) [true, true, true])
          = [((0, 1), [true, true, true])] from by decide]
      simp [sub_zero, hcd3, fightSustainFrames]
    rw [e3] at hs4
    dsimp only at hs4
    refine ⟨by rw [e1], by rw [e2], by rw [e3]; rfl, by rw [e3], ?_, ?_⟩
    · intro hp4 hcd4
      rw [e3] at hp4
      dsimp only at hp4
      simp only [pairPasses, List.getD_cons_zero, List.getD_cons_succ, Bool.and_eq_true] at hp4
      obtain ⟨hprox4, hcrit4⟩ := hp4
      have hbuf4 : pairBuf (⟨[a3.keypoints, b3.keypoints], [a3.bbox, b3.bbox], t3,
          (assignSlots (assignSlots 2 [a1.bbox, b1.bbox] [0, 1] [a2, b2]).2
            [a2.bbox, b2.bbox] [0, 1] [a3, b3]).2, [0, 1],
          [((0, 1), [true, true, true])]⟩ : FightState) a4 b4 = [true, true, true] := by
        simp only [pairBuf]
        dsimp only
        rw [hcrit4]
        rfl
      show (detectFight s3.1 camId i4 [a4, b4] t4).2.2 = []
      rw [e3]
      rw [detectFight_two_prox _ camId i4 a4 b4 t4 hs4 hprox4, hbuf4]
      dsimp only
      rw [if_pos (show [true, true, true].length = fightSustainFrames ∧
          [true, true, true].all (fun x => x) by decide)]
      rw [if_neg (not_le.mpr hcd4)]
    · intro hp4 hcd4
      rw [e3] at hp4
      dsimp only at hp4
      simp only [pairPasses, List.getD_cons_zero, List.getD_cons_succ, Bool.and_eq_true] at hp4
      obtain ⟨hprox4, hcrit4⟩ := hp4
      have hbuf4 : pairBuf (⟨[a3.keypoints, b3.keypoints], [a3.bbox, b3.bbox], t3,
          (assignSlots (assignSlots 2 [a1.bbox, b1.bbox] [0, 1] [a2, b2]).2
            [a2.bbox, b2.bbox] [0, 1] [a3, b3]).2, [0, 1],
          [((0, 1), [true, true, true])]⟩ : FightState) a4 b4 = [true, true, true] := by
        simp only [pairBuf]
        dsimp only
        rw [hcrit4]
        rfl
      show (detectFight s3.1 camId i4 [a4, b4] t4).2.2.length = 1
      rw [e3]
      rw [detectFight_two_prox _ camId i4 a4 b4 t4 hs4 hprox4, hbuf4]
      dsimp only
      rw [if_pos (show [true, true, true].length = fightSustainFrames ∧
          [true, true, true].all (fun x => x) by decide)]
      rw [if_pos hcd4]
      rfl

/-- C1 witness: two fixed people close together, meeting arm-intrusion and
aggressive-posture every cycle, at times 10, 11, 12, 13: exactly one fight
event fires, on cycle 3, and cycle 4 (1 s later, within the 3 s cooldown)
fires nothing. -/
theorem fight_sustain_window_witness :
    (detectFight (detectFight (detectFight initFightState "cam_0" "t1"
        [witPoseA, witPoseB] 10).1 "cam_0" "t2" [witPoseA, witPoseB] 11).1 "cam_0" "t3"
        [witPoseA, witPoseB] 12).2.2.length = 1 ∧
      (detectFight (detectFight (detectFight (detectFight initFightState "cam_0" "t1"
          [witPoseA, witPoseB] 10).1 "cam_0" "t2" [witPoseA, witPoseB] 11).1 "cam_0" "t3"
          [witPoseA, witPoseB] 12).1 "cam_0" "t4" [witPoseA, witPoseB] 13).2.2 = [] := by
  have h := fight_sustain_window "cam_0" "t1" "t2" "t3" "t4" witPoseA witPoseB witPoseA
    witPoseB witPoseA witPoseB witPoseA witPoseB 10 11 12 13 (by decide) (by decide)
    (by decide) (by decide) (by decide)
  have h2 := h.2 (by decide) (by decide)
  exact ⟨h2.2.2.1, h2.2.2.2.2.1 (by decide) (by decide)⟩

end
